import Mathlib

/-!
# Shared-memory file transfer (sender.cpp / recv.cpp / msg.h)

A shallow embedding of the two processes of the repository:

* `send()` of `sender.cpp` (lines 131-193), and
* `mainLoop()` of `recv.cpp` (lines 114-208) followed by the tail of its
  `main` (`return 0;`, line 255),

running against each other over one System V message queue and one shared
memory segment.  Every library or system call of the two functions is one
step of a step function; what the operating system answers to the call
(success, failure, a short count) is an explicit argument of the step, and
each process records the calls it makes in a trace.

Left out: the console output (`printf`, `message::printer`), the two
`init()` functions (both processes are taken after a successful `init()`:
one segment of `SHARED_MEMORY_CHUNK_SIZE` bytes, one empty queue), what
`main` of sender.cpp does after `send()` has returned (`cleanUp`,
`return 0`), and the SIGINT handler of recv.cpp.

Bytes are natural numbers, files and the segment are lists of bytes; `int`
and `size_t` values are integers and naturals, with the two conversions the
code performs written out (`toInt32`, `toSizeT`).
-/

namespace ShmTransfer

/-! ## Constants and data (msg.h, sender.cpp:38, recv.cpp:35) -/

/-- The size of the shared memory chunk. -/
def SHARED_MEMORY_CHUNK_SIZE : Nat := 1000

/-- The information type. -/
def SENDER_DATA_TYPE : Int := 1

/-- The done message type. -/
def RECV_DONE_TYPE : Int := 2

/-- The message structure of msg.h: `long mtype; int size;`. -/
structure message where
  mtype : Int
  size : Int
deriving DecidableEq

/-- A message as the kernel queue holds it: the type tag and the `msgsz`
payload bytes.  The payload is `some size` when the caller passed
`sizeof(struct message) - sizeof(long)` and `none` when it passed `0`. -/
structure KMsg where
  mtype : Int
  mtext : Option Int
deriving DecidableEq

/-- Conversion of a `size_t` value to `int` (the assignment
`sndMsg.size = fread(...)`). -/
def toInt32 (n : Nat) : Int :=
  if n % 4294967296 < 2147483648 then ((n % 4294967296 : Nat) : Int)
  else ((n % 4294967296 : Nat) : Int) - 4294967296

/-- Conversion of an `int` to `size_t` (the third argument of `fwrite`). -/
def toSizeT (i : Int) : Nat := (i % 18446744073709551616).toNat

/-! ## The state of the two processes -/

/-- Program points of `send()` in sender.cpp. -/
inductive SPc
  | start      -- line 134: fopen(fileName, "r")
  | loopHead   -- line 153: while (!feof(fp))
  | fread      -- line 160: fread into sharedMemPtr
  | sendData   -- line 167: msgsnd of the chunk announcement
  | waitAck    -- line 175: msgrcv of RECV_DONE_TYPE
  | finalSend  -- lines 184-191: size = 0, msgsnd, fclose
  | returned   -- send() has returned to main
  | exited (code : Int)  -- exit(code) was called
deriving DecidableEq

/-- Program points of `mainLoop()` and of the tail of `main` in recv.cpp. -/
inductive RPc
  | start      -- line 122: fopen(recvFileName, "w")
  | firstRecv  -- line 141: first msgrcv of SENDER_DATA_TYPE
  | loopHead   -- line 169: while (msgSize != 0)
  | fwrite     -- line 176: fwrite from sharedMemPtr
  | sendAck    -- lines 182-185: msgsnd of RECV_DONE_TYPE
  | recv       -- line 191: next msgrcv of SENDER_DATA_TYPE
  | returned   -- mainLoop() has returned to main (line 253)
  | exited (code : Int)  -- exit(code), or main returned code
deriving DecidableEq

/-- The calls a process makes, in the order it makes them. -/
inductive Ev
  | fopen (ok : Bool)
  | fread (n : Nat)
  | fwrite (req : Nat) (written : Nat)
  | msgsnd (m : KMsg) (ok : Bool)
  | msgrcv (want : Int) (got : Option KMsg)
  | perror
  | fclose
  | exit (code : Int)
deriving DecidableEq

/-- The state of the two processes and of what they share. -/
structure Sys where
  /-- sender: program point -/
  spc : SPc
  /-- sender: the bytes of the input file after the stream position -/
  file : List Nat
  /-- sender: end-of-file indicator of `fp` -/
  eof : Bool
  /-- sender: `sndMsg` -/
  sndMsg : message
  /-- sender: calls made so far -/
  strace : List Ev
  /-- receiver: program point -/
  rpc : RPc
  /-- receiver: `myMessage` -/
  myMessage : message
  /-- receiver: `msgSize` -/
  msgSize : Int
  /-- receiver: content of `recvfile`, `none` while it does not exist -/
  out : Option (List Nat)
  /-- receiver: calls made so far -/
  rtrace : List Ev
  /-- the shared memory segment -/
  shm : List Nat
  /-- the message queue -/
  queue : List KMsg
deriving DecidableEq

/-- What the operating system answers to the next call: whether the call
fails (`-1` for msgsnd/msgrcv, `NULL` for fopen, an I/O error for
fread/fwrite) and, for a failing fread/fwrite, how many items were
transferred before the error. -/
structure Env where
  fail : Bool
  count : Nat
deriving DecidableEq

/-- The answer of a call that succeeds. -/
def okEnv : Env := { fail := false, count := 0 }

/-! ## The message queue -/

/-- Body of `msgrcv(msqid, ., ., t, 0)` for `t > 0`: the first message of
type `t` is taken out of the queue; `none` when there is none (the call
blocks). -/
def dequeue (t : Int) : List KMsg → Option (KMsg × List KMsg)
  | [] => none
  | m :: q =>
    if m.mtype = t then some (m, q)
    else match dequeue t q with
      | none => none
      | some (x, q2) => some (x, m :: q2)

/-- Copy of a received kernel message into the caller's `struct message`:
the type always, the `size` field only when the payload carries it. -/
def deliver (m : KMsg) (buf : message) : message :=
  { mtype := m.mtype, size := m.mtext.getD buf.size }

/-! ## The two programs, one call per step -/

/-- One call of `send()` (sender.cpp:131-193). -/
def senderStep (env : Env) (s : Sys) : Option Sys :=
  match s.spc with
  | .start =>
    -- FILE* fp = fopen(fileName, "r"); if (!fp) { perror; exit(-1); }
    if env.fail then
      some { s with spc := .exited (-1),
                    strace := s.strace ++ [.fopen false, .perror, .exit (-1)] }
    else
      -- sndMsg.mtype = SENDER_DATA_TYPE;
      some { s with spc := .loopHead, eof := false,
                    sndMsg := { s.sndMsg with mtype := SENDER_DATA_TYPE },
                    strace := s.strace ++ [.fopen true] }
  | .loopHead =>
    -- while (!feof(fp))
    if s.eof then some { s with spc := .finalSend }
    else some { s with spc := .fread }
  | .fread =>
    -- sndMsg.size = fread(sharedMemPtr, sizeof(char), SHARED_MEMORY_CHUNK_SIZE, fp)
    let avail := min SHARED_MEMORY_CHUNK_SIZE s.file.length
    let r := if env.fail then min env.count avail else avail
    let size := toInt32 r
    let s1 : Sys :=
      { s with file := s.file.drop r,
               eof := s.eof || (!env.fail && decide (r < SHARED_MEMORY_CHUNK_SIZE)),
               shm := s.file.take r ++ s.shm.drop r,
               sndMsg := { s.sndMsg with size := size },
               strace := s.strace ++ [.fread r] }
    -- if ((sndMsg.size = fread(...)) < 0) { perror; exit(-1); }
    if size < 0 then
      some { s1 with spc := .exited (-1), strace := s1.strace ++ [.perror, .exit (-1)] }
    else
      some { s1 with spc := .sendData }
  | .sendData =>
    -- if (msgsnd(msqid, &sndMsg, sizeof(struct message) - sizeof(long), 0) == -1) perror;
    let m : KMsg := { mtype := s.sndMsg.mtype, mtext := some s.sndMsg.size }
    if env.fail then
      some { s with spc := .waitAck, strace := s.strace ++ [.msgsnd m false, .perror] }
    else
      some { s with spc := .waitAck, queue := s.queue ++ [m],
                    strace := s.strace ++ [.msgsnd m true] }
  | .waitAck =>
    -- if (msgrcv(msqid, &rcvMsg, ..., RECV_DONE_TYPE, 0) == -1) { perror; exit(1); }
    if env.fail then
      some { s with spc := .exited 1,
                    strace := s.strace ++ [.msgrcv RECV_DONE_TYPE none, .perror, .exit 1] }
    else
      match dequeue RECV_DONE_TYPE s.queue with
      | none => none
      | some (m, q) =>
        some { s with spc := .loopHead, queue := q,
                      strace := s.strace ++ [.msgrcv RECV_DONE_TYPE (some m)] }
  | .finalSend =>
    -- sndMsg.size = 0; if (msgsnd(...) == -1) perror; fclose(fp);
    let m : KMsg := { mtype := s.sndMsg.mtype, mtext := some 0 }
    if env.fail then
      some { s with spc := .returned, sndMsg := { s.sndMsg with size := 0 },
                    strace := s.strace ++ [.msgsnd m false, .perror, .fclose] }
    else
      some { s with spc := .returned, sndMsg := { s.sndMsg with size := 0 },
                    queue := s.queue ++ [m],
                    strace := s.strace ++ [.msgsnd m true, .fclose] }
  | .returned => none
  | .exited _ => none

/-- One call of `mainLoop()` (recv.cpp:114-208), or the `return 0` of
`main` after it (recv.cpp:253-255). -/
def recvStep (env : Env) (s : Sys) : Option Sys :=
  match s.rpc with
  | .start =>
    -- FILE* fp = fopen(recvFileName, "w"); if (!fp) { perror; exit(-1); }
    if env.fail then
      some { s with rpc := .exited (-1),
                    rtrace := s.rtrace ++ [.fopen false, .perror, .exit (-1)] }
    else
      some { s with rpc := .firstRecv, out := some [],
                    rtrace := s.rtrace ++ [.fopen true] }
  | .firstRecv =>
    -- if (msgrcv(..., SENDER_DATA_TYPE, 0) == -1) { perror; fclose(fp); exit(1); }
    if env.fail then
      some { s with rpc := .exited 1,
                    rtrace := s.rtrace ++
                      [.msgrcv SENDER_DATA_TYPE none, .perror, .fclose, .exit 1] }
    else
      match dequeue SENDER_DATA_TYPE s.queue with
      | none => none
      | some (m, q) =>
        -- msgSize = myMessage.size;
        some { s with rpc := .loopHead, queue := q,
                      myMessage := deliver m s.myMessage,
                      msgSize := (deliver m s.myMessage).size,
                      rtrace := s.rtrace ++ [.msgrcv SENDER_DATA_TYPE (some m)] }
  | .loopHead =>
    -- while (msgSize != 0) { if (msgSize != 0) { ... } else { fclose(fp); } }
    if s.msgSize ≠ 0 then
      if s.msgSize ≠ 0 then some { s with rpc := .fwrite }
      else some { s with rtrace := s.rtrace ++ [.fclose] }
    else
      some { s with rpc := .returned }
  | .fwrite =>
    -- if (fwrite(sharedMemPtr, sizeof(char), msgSize, fp) < 0) perror;
    let req := toSizeT s.msgSize
    let w := if env.fail then min env.count req else req
    let s1 : Sys :=
      { s with out := s.out.map (fun o => o ++ (s.shm.take req).take w),
               rtrace := s.rtrace ++ [.fwrite req w] }
    if w < 0 then
      some { s1 with rpc := .sendAck, rtrace := s1.rtrace ++ [.perror] }
    else
      some { s1 with rpc := .sendAck }
  | .sendAck =>
    -- myMessage.mtype = RECV_DONE_TYPE;
    -- if (msgsnd(msqid, &myMessage, 0, 0) == -1) { perror; exit(1); }
    let m : KMsg := { mtype := RECV_DONE_TYPE, mtext := none }
    if env.fail then
      some { s with rpc := .exited 1,
                    myMessage := { s.myMessage with mtype := RECV_DONE_TYPE },
                    rtrace := s.rtrace ++ [.msgsnd m false, .perror, .exit 1] }
    else
      some { s with rpc := .recv,
                    myMessage := { s.myMessage with mtype := RECV_DONE_TYPE },
                    queue := s.queue ++ [m],
                    rtrace := s.rtrace ++ [.msgsnd m true] }
  | .recv =>
    -- if (msgrcv(..., SENDER_DATA_TYPE, 0) == -1) { perror; exit(1); }
    if env.fail then
      some { s with rpc := .exited 1,
                    rtrace := s.rtrace ++ [.msgrcv SENDER_DATA_TYPE none, .perror, .exit 1] }
    else
      match dequeue SENDER_DATA_TYPE s.queue with
      | none => none
      | some (m, q) =>
        -- msgSize = myMessage.size;
        some { s with rpc := .loopHead, queue := q,
                      myMessage := deliver m s.myMessage,
                      msgSize := (deliver m s.myMessage).size,
                      rtrace := s.rtrace ++ [.msgrcv SENDER_DATA_TYPE (some m)] }
  | .returned =>
    -- main: mainLoop(); return 0;
    some { s with rpc := .exited 0, rtrace := s.rtrace ++ [.exit 0] }
  | .exited _ => none

/-! ## Runs of the two processes against each other -/

/-- The two processes. -/
inductive Role
  | sender
  | receiver
deriving DecidableEq

/-- One step of the system: the process `r` makes its next call and the
operating system answers `env`; `none` when the process is blocked in
msgrcv or has terminated. -/
def step (r : Role) (env : Env) (s : Sys) : Option Sys :=
  match r with
  | .sender => senderStep env s
  | .receiver => recvStep env s

/-- Both processes at the entry of `send()` / `mainLoop()`: input file `f`
not yet opened, `recvfile` with content `old` (or absent), the shared
segment holding `shm0`, the queue empty.  The fields of `sndMsg` and
`myMessage` are written before they are read. -/
def init (f : List Nat) (old : Option (List Nat)) (shm0 : List Nat) : Sys :=
  { spc := .start, file := f, eof := false, sndMsg := { mtype := 0, size := 0 },
    strace := [],
    rpc := .start, myMessage := { mtype := 0, size := 0 }, msgSize := 0,
    out := old, rtrace := [],
    shm := shm0, queue := [] }

/-- Run of a schedule: each entry lets one process make its next call with
the given answer; an entry naming a blocked or terminated process changes
nothing. -/
def exec : List (Role × Env) → Sys → Sys
  | [], s => s
  | (r, e) :: rest, s => exec rest ((step r e s).getD s)

/-- A schedule in which every call succeeds. -/
def okSched (sched : List Role) : List (Role × Env) := sched.map (fun r => (r, okEnv))

/-- The next step when no call fails: the sender if it can move, else the
receiver. -/
def next (s : Sys) : Option Sys :=
  match step .sender okEnv s with
  | some t => some t
  | none => step .receiver okEnv s

/-- No process can make a successful call: each is blocked or has
terminated. -/
def quiescent (s : Sys) : Prop :=
  step .sender okEnv s = none ∧ step .receiver okEnv s = none

instance (s : Sys) : Decidable (quiescent s) := by
  unfold quiescent; infer_instance

/-- Failure-free run with fuel. -/
def run : Nat → Sys → Sys
  | 0, s => s
  | n + 1, s =>
    match next s with
    | some t => run n t
    | none => s

/-! ## What a trace contains -/

/-- The size announced by a call, when the call is a successful msgsnd of
a DATA message. -/
def dataSize? : Ev → Option Int
  | .msgsnd { mtype := t, mtext := some sz } true =>
    if t = SENDER_DATA_TYPE then some sz else none
  | _ => none

/-- Sizes of the DATA messages a trace sent successfully, in order. -/
def dataSizes (tr : List Ev) : List Int := tr.filterMap dataSize?

/-- The call is a successful msgsnd of an ACK (RECV_DONE_TYPE) message. -/
def isAckSend : Ev → Bool
  | .msgsnd m true => decide (m.mtype = RECV_DONE_TYPE)
  | _ => false

/-- Number of ACK messages a trace sent successfully. -/
def acksSent (tr : List Ev) : Nat := tr.countP isAckSend

/-- The call is a msgrcv that returned an ACK message. -/
def isAckRecv : Ev → Bool
  | .msgrcv _ (some m) => decide (m.mtype = RECV_DONE_TYPE)
  | _ => false

/-- Number of ACK messages a trace received. -/
def acksReceived (tr : List Ev) : Nat := tr.countP isAckRecv

/-- The message is a DATA message announcing a nonzero size. -/
def isNzData (m : KMsg) : Bool :=
  decide (m.mtype = SENDER_DATA_TYPE) && decide (m.mtext ≠ some 0)

/-- The call is a successful msgsnd of a DATA message of nonzero size. -/
def isNzSend : Ev → Bool
  | .msgsnd m true => isNzData m
  | _ => false

/-- Number of nonzero DATA messages a trace sent successfully. -/
def nzSent (tr : List Ev) : Nat := tr.countP isNzSend

/-- The call is a msgrcv that returned a DATA message of nonzero size. -/
def isNzRecv : Ev → Bool
  | .msgrcv _ (some m) => isNzData m
  | _ => false

/-- Number of nonzero DATA messages a trace received. -/
def nzReceived (tr : List Ev) : Nat := tr.countP isNzRecv

/-- Number of bytes the fwrite calls of a trace wrote. -/
def bytesWritten : List Ev → Nat
  | [] => 0
  | .fwrite _ w :: t => w + bytesWritten t
  | _ :: t => bytesWritten t

/-! ## The states of a failure-free run -/

/-- The DATA message announcing `n` bytes. -/
def dataMsg (n : Nat) : KMsg := { mtype := SENDER_DATA_TYPE, mtext := some (n : Int) }

/-- The ACK message: type tag only. -/
def ackMsg : KMsg := { mtype := RECV_DONE_TYPE, mtext := none }

/-- The sender's calls for one acknowledged chunk of `n` bytes. -/
def sCycle (n : Nat) : List Ev :=
  [.fread n, .msgsnd (dataMsg n) true, .msgrcv RECV_DONE_TYPE (some ackMsg)]

/-- The receiver's calls for one chunk of `n` bytes. -/
def rCycle (n : Nat) : List Ev :=
  [.msgrcv SENDER_DATA_TYPE (some (dataMsg n)), .fwrite n n, .msgsnd ackMsg true]

/-- The sender's calls after `k` full chunks. -/
def sTrace : Nat → List Ev
  | 0 => [.fopen true]
  | k + 1 => sTrace k ++ sCycle SHARED_MEMORY_CHUNK_SIZE

/-- The receiver's calls after `k` full chunks. -/
def rTrace : Nat → List Ev
  | 0 => [.fopen true]
  | k + 1 => rTrace k ++ rCycle SHARED_MEMORY_CHUNK_SIZE

/-- Local state of the sender. -/
structure SSt (s : Sys) (pc : SPc) (file : List Nat) (eof : Bool) (tr : List Ev) : Prop where
  pc : s.spc = pc
  file : s.file = file
  eof : s.eof = eof
  tr : s.strace = tr
  mtype : s.sndMsg.mtype = SENDER_DATA_TYPE

/-- Local state of the receiver. -/
structure RSt (s : Sys) (pc : RPc) (out : Option (List Nat)) (tr : List Ev) : Prop where
  pc : s.rpc = pc
  out : s.out = out
  tr : s.rtrace = tr

/-- The receiver before its next msgrcv, `k` full chunks written. -/
def RWait (old : Option (List Nat)) (k : Nat) (done : List Nat) (s : Sys) : Prop :=
  (k = 0 ∧ RSt s .start old []) ∨
  RSt s (if k = 0 then .firstRecv else .recv) (some done) (rTrace k)

/-- The states of a failure-free run on input `f`, phase by phase.  In the
phases of the loop, `done` is what has been acknowledged (`k` full chunks),
`rest` what follows it in the file and `n` the size of the chunk that the
sender read last. -/
inductive Inv (f : List Nat) (old : Option (List Nat)) : Sys → Prop
  | start (s : Sys) (hpc : s.spc = .start) (hfile : s.file = f) (htr : s.strace = [])
      (hq : s.queue = []) (hr : RWait old 0 [] s) : Inv f old s
  | loopHead (s : Sys) (k : Nat) (done rest : List Nat)
      (hf : f = done ++ rest) (hk : done.length = 1000 * k)
      (hS : SSt s .loopHead rest false (sTrace k))
      (hq : s.queue = []) (hr : RWait old k done s) : Inv f old s
  | fread (s : Sys) (k : Nat) (done rest : List Nat)
      (hf : f = done ++ rest) (hk : done.length = 1000 * k)
      (hS : SSt s .fread rest false (sTrace k))
      (hq : s.queue = []) (hr : RWait old k done s) : Inv f old s
  | sendData (s : Sys) (k : Nat) (done rest : List Nat) (n : Nat)
      (hf : f = done ++ rest) (hk : done.length = 1000 * k) (hn : n = min 1000 rest.length)
      (hS : SSt s .sendData (rest.drop n) (decide (n < 1000)) (sTrace k ++ [.fread n]))
      (hsz : s.sndMsg.size = (n : Int)) (hshm : s.shm.take n = rest.take n)
      (hq : s.queue = []) (hr : RWait old k done s) : Inv f old s
  | sent (s : Sys) (k : Nat) (done rest : List Nat) (n : Nat)
      (hf : f = done ++ rest) (hk : done.length = 1000 * k) (hn : n = min 1000 rest.length)
      (hS : SSt s .waitAck (rest.drop n) (decide (n < 1000))
        (sTrace k ++ [.fread n, .msgsnd (dataMsg n) true]))
      (hshm : s.shm.take n = rest.take n)
      (hq : s.queue = [dataMsg n]) (hr : RWait old k done s) : Inv f old s
  | got (s : Sys) (k : Nat) (done rest : List Nat) (n : Nat)
      (hf : f = done ++ rest) (hk : done.length = 1000 * k) (hn : n = min 1000 rest.length)
      (hS : SSt s .waitAck (rest.drop n) (decide (n < 1000))
        (sTrace k ++ [.fread n, .msgsnd (dataMsg n) true]))
      (hshm : s.shm.take n = rest.take n) (hq : s.queue = [])
      (hR : RSt s .loopHead (some done)
        (rTrace k ++ [.msgrcv SENDER_DATA_TYPE (some (dataMsg n))]))
      (hms : s.msgSize = (n : Int)) : Inv f old s
  | fwrite (s : Sys) (k : Nat) (done rest : List Nat) (n : Nat)
      (hf : f = done ++ rest) (hk : done.length = 1000 * k) (hn : n = min 1000 rest.length)
      (hpos : 0 < n)
      (hS : SSt s .waitAck (rest.drop n) (decide (n < 1000))
        (sTrace k ++ [.fread n, .msgsnd (dataMsg n) true]))
      (hshm : s.shm.take n = rest.take n) (hq : s.queue = [])
      (hR : RSt s .fwrite (some done)
        (rTrace k ++ [.msgrcv SENDER_DATA_TYPE (some (dataMsg n))]))
      (hms : s.msgSize = (n : Int)) : Inv f old s
  | sendAck (s : Sys) (k : Nat) (done rest : List Nat) (n : Nat)
      (hf : f = done ++ rest) (hk : done.length = 1000 * k) (hn : n = min 1000 rest.length)
      (hpos : 0 < n)
      (hS : SSt s .waitAck (rest.drop n) (decide (n < 1000))
        (sTrace k ++ [.fread n, .msgsnd (dataMsg n) true]))
      (hq : s.queue = [])
      (hR : RSt s .sendAck (some (done ++ rest.take n))
        (rTrace k ++ [.msgrcv SENDER_DATA_TYPE (some (dataMsg n)), .fwrite n n])) :
      Inv f old s
  | acked (s : Sys) (k : Nat) (done rest : List Nat) (n : Nat)
      (hf : f = done ++ rest) (hk : done.length = 1000 * k) (hn : n = min 1000 rest.length)
      (hpos : 0 < n)
      (hS : SSt s .waitAck (rest.drop n) (decide (n < 1000))
        (sTrace k ++ [.fread n, .msgsnd (dataMsg n) true]))
      (hq : s.queue = [ackMsg])
      (hR : RSt s .recv (some (done ++ rest.take n)) (rTrace k ++ rCycle n)) : Inv f old s
  | lastHead (s : Sys) (k n : Nat) (hlen : f.length = 1000 * k + n) (hpos : 0 < n)
      (hlt : n < 1000)
      (hS : SSt s .loopHead [] true (sTrace k ++ sCycle n))
      (hq : s.queue = [])
      (hR : RSt s .recv (some f) (rTrace k ++ rCycle n)) : Inv f old s
  | finalSend (s : Sys) (k n : Nat) (hlen : f.length = 1000 * k + n) (hpos : 0 < n)
      (hlt : n < 1000)
      (hS : SSt s .finalSend [] true (sTrace k ++ sCycle n))
      (hq : s.queue = [])
      (hR : RSt s .recv (some f) (rTrace k ++ rCycle n)) : Inv f old s
  | sentinel (s : Sys) (k n : Nat) (hlen : f.length = 1000 * k + n) (hpos : 0 < n)
      (hlt : n < 1000)
      (hS : SSt s .returned [] true
        (sTrace k ++ sCycle n ++ [.msgsnd (dataMsg 0) true, .fclose]))
      (hq : s.queue = [dataMsg 0])
      (hR : RSt s .recv (some f) (rTrace k ++ rCycle n)) : Inv f old s
  | gotSentinel (s : Sys) (k n : Nat) (hlen : f.length = 1000 * k + n) (hpos : 0 < n)
      (hlt : n < 1000)
      (hS : SSt s .returned [] true
        (sTrace k ++ sCycle n ++ [.msgsnd (dataMsg 0) true, .fclose]))
      (hq : s.queue = [])
      (hR : RSt s .loopHead (some f)
        (rTrace k ++ rCycle n ++ [.msgrcv SENDER_DATA_TYPE (some (dataMsg 0))]))
      (hms : s.msgSize = 0) : Inv f old s
  | loopDone (s : Sys) (k n : Nat) (hlen : f.length = 1000 * k + n) (hpos : 0 < n)
      (hlt : n < 1000)
      (hS : SSt s .returned [] true
        (sTrace k ++ sCycle n ++ [.msgsnd (dataMsg 0) true, .fclose]))
      (hq : s.queue = [])
      (hR : RSt s .returned (some f)
        (rTrace k ++ rCycle n ++ [.msgrcv SENDER_DATA_TYPE (some (dataMsg 0))])) :
      Inv f old s
  | finished (s : Sys) (k n : Nat) (hlen : f.length = 1000 * k + n) (hpos : 0 < n)
      (hlt : n < 1000)
      (hS : SSt s .returned [] true
        (sTrace k ++ sCycle n ++ [.msgsnd (dataMsg 0) true, .fclose]))
      (hq : s.queue = [])
      (hR : RSt s (.exited 0) (some f)
        (rTrace k ++ rCycle n ++ [.msgrcv SENDER_DATA_TYPE (some (dataMsg 0)), .exit 0])) :
      Inv f old s
  | stuckLoopDone (s : Sys) (k : Nat) (hlen : f.length = 1000 * k)
      (hS : SSt s .waitAck [] true (sTrace k ++ [.fread 0, .msgsnd (dataMsg 0) true]))
      (hq : s.queue = [])
      (hR : RSt s .returned (some f)
        (rTrace k ++ [.msgrcv SENDER_DATA_TYPE (some (dataMsg 0))])) : Inv f old s
  | stuck (s : Sys) (k : Nat) (hlen : f.length = 1000 * k)
      (hS : SSt s .waitAck [] true (sTrace k ++ [.fread 0, .msgsnd (dataMsg 0) true]))
      (hq : s.queue = [])
      (hR : RSt s (.exited 0) (some f)
        (rTrace k ++ [.msgrcv SENDER_DATA_TYPE (some (dataMsg 0)), .exit 0])) : Inv f old s

/-! ## A bound on the length of a failure-free run -/

/-- Number of DATA messages in the queue. -/
def dataCount : List KMsg → Nat
  | [] => 0
  | m :: q => if m.mtype = SENDER_DATA_TYPE then dataCount q + 1 else dataCount q

/-- Rank of the sender's program point. -/
def srank : SPc → Nat
  | .start => 16
  | .loopHead => 7
  | .fread => 6
  | .sendData => 13
  | .waitAck => 8
  | .finalSend => 5
  | .returned => 0
  | .exited _ => 0

/-- Rank of the receiver's program point. -/
def rrank : RPc → Nat
  | .start => 1
  | .firstRecv => 0
  | .loopHead => 3
  | .fwrite => 2
  | .sendAck => 1
  | .recv => 0
  | .returned => 1
  | .exited _ => 0

/-- A bound on the number of calls still to come. -/
def fuelBound (s : Sys) : Nat :=
  8 * (s.file.length + if s.eof then 0 else 1) + srank s.spc + rrank s.rpc
    + 4 * dataCount s.queue

/-- End of a failure-free run on an input of `k` full chunks and nothing
more: the receiver has finished, the sender is blocked in its msgrcv. -/
structure EndBlocked (f : List Nat) (s : Sys) (k : Nat) : Prop where
  len : f.length = 1000 * k
  S : SSt s .waitAck [] true (sTrace k ++ [.fread 0, .msgsnd (dataMsg 0) true])
  q : s.queue = []
  R : RSt s (.exited 0) (some f)
    (rTrace k ++ [.msgrcv SENDER_DATA_TYPE (some (dataMsg 0)), .exit 0])

/-- End of a failure-free run on an input of `k` full chunks and a last
chunk of `n` bytes, `0 < n < 1000`: both have finished. -/
structure EndFinished (f : List Nat) (s : Sys) (k n : Nat) : Prop where
  len : f.length = 1000 * k + n
  pos : 0 < n
  lt : n < 1000
  S : SSt s .returned [] true (sTrace k ++ sCycle n ++ [.msgsnd (dataMsg 0) true, .fclose])
  q : s.queue = []
  R : RSt s (.exited 0) (some f)
    (rTrace k ++ rCycle n ++ [.msgrcv SENDER_DATA_TYPE (some (dataMsg 0)), .exit 0])

/-- The state a schedule of successful calls reaches from the start. -/
def runOf (sched : List Role) (f : List Nat) (old : Option (List Nat)) (shm0 : List Nat) : Sys :=
  exec (okSched sched) (init f old shm0)

/-- A call that fails; a failing fread or fwrite transfers `c` items. -/
def failEnv (c : Nat) : Env := { fail := true, count := c }

/-! ## Invariants that hold whatever the calls answer -/

/-- The messages the two processes put on the queue: a DATA message with a
size between 0 and 1000, or the ACK message. -/
def MsgOk (m : KMsg) : Prop :=
  (m.mtype = SENDER_DATA_TYPE ∧ ∃ n : Nat, n ≤ SHARED_MEMORY_CHUNK_SIZE ∧ m.mtext = some (n : Int))
    ∨ m = ackMsg

/-- The call stays within the shared segment: an fread stages at most 1000
bytes, an fwrite is asked for at most 1000 bytes and writes no more than it
is asked for, a msgsnd carries a size between 0 and 1000. -/
def evBounded : Ev → Prop
  | .fread n => n ≤ SHARED_MEMORY_CHUNK_SIZE
  | .fwrite req w => req ≤ SHARED_MEMORY_CHUNK_SIZE ∧ w ≤ req
  | .msgsnd m _ => MsgOk m
  | _ => True

/-- The bounds on sizes, in every state. -/
structure Bounded (s : Sys) : Prop where
  qok : ∀ m ∈ s.queue, MsgOk m
  sok : ∀ e ∈ s.strace, evBounded e
  rok : ∀ e ∈ s.rtrace, evBounded e
  smt : s.spc = .loopHead ∨ s.spc = .fread ∨ s.spc = .sendData ∨ s.spc = .waitAck ∨
    s.spc = .finalSend → s.sndMsg.mtype = SENDER_DATA_TYPE
  ssz : s.spc = .sendData → ∃ n : Nat, n ≤ SHARED_MEMORY_CHUNK_SIZE ∧ s.sndMsg.size = (n : Int)
  rsz : s.rpc = .loopHead ∨ s.rpc = .fwrite →
    ∃ n : Nat, n ≤ SHARED_MEMORY_CHUNK_SIZE ∧ s.msgSize = (n : Int)

/-- Number of ACK messages in the queue. -/
def ackQueued (q : List KMsg) : Nat := q.countP (fun m => decide (m.mtype = RECV_DONE_TYPE))

/-- Number of nonzero DATA messages in the queue. -/
def nzQueued (q : List KMsg) : Nat := q.countP isNzData

/-- How the messages sent, queued and received add up, in every state. -/
structure Counted (s : Sys) : Prop where
  ack : acksReceived s.strace + ackQueued s.queue = acksSent s.rtrace
  nz : nzSent s.strace = nzQueued s.queue + nzReceived s.rtrace
  rcnt : acksSent s.rtrace ≤ nzReceived s.rtrace
  rcnt1 : s.rpc = .fwrite ∨ s.rpc = .sendAck ∨ (s.rpc = .loopHead ∧ s.msgSize ≠ 0) →
    acksSent s.rtrace + 1 ≤ nzReceived s.rtrace
  scnt : nzSent s.strace ≤ acksReceived s.strace + 1
  scnt0 : s.spc = .start ∨ s.spc = .loopHead ∨ s.spc = .fread ∨ s.spc = .sendData ∨
    s.spc = .finalSend ∨ s.spc = .returned → nzSent s.strace ≤ acksReceived s.strace

/-! ## Theorems -/

/-! ### The two integer conversions on chunk sizes -/

theorem toInt32_small (n : Nat) (h : n ≤ 1000) : toInt32 n = (n : Int) := by
  unfold toInt32
  have h1 : n % 4294967296 = n := Nat.mod_eq_of_lt (by omega)
  rw [h1]
  have h2 : n < 2147483648 := by omega
  simp [h2]

theorem toSizeT_natCast (n : Nat) (h : n ≤ 1000) : toSizeT (n : Int) = n := by
  unfold toSizeT
  omega

/-! ### The failure-free run: every step keeps the description of the state -/

theorem inv_init (f : List Nat) (old : Option (List Nat)) (shm0 : List Nat) :
    Inv f old (init f old shm0) :=
  Inv.start _ rfl rfl rfl rfl (Or.inl ⟨rfl, ⟨rfl, rfl, rfl⟩⟩)

theorem rst_frame {s t : Sys} {pc : RPc} {out : Option (List Nat)} {tr : List Ev}
    (h : RSt s pc out tr) (e1 : t.rpc = s.rpc) (e2 : t.out = s.out)
    (e3 : t.rtrace = s.rtrace) : RSt t pc out tr :=
  ⟨e1.trans h.pc, e2.trans h.out, e3.trans h.tr⟩

theorem rwait_frame {old : Option (List Nat)} {k : Nat} {done : List Nat} {s t : Sys}
    (h : RWait old k done s) (e1 : t.rpc = s.rpc) (e2 : t.out = s.out)
    (e3 : t.rtrace = s.rtrace) : RWait old k done t := by
  rcases h with ⟨hk, h⟩ | h
  · exact Or.inl ⟨hk, rst_frame h e1 e2 e3⟩
  · exact Or.inr (rst_frame h e1 e2 e3)

theorem sst_frame {s t : Sys} {pc : SPc} {file : List Nat} {eof : Bool} {tr : List Ev}
    (h : SSt s pc file eof tr) (e1 : t.spc = s.spc) (e2 : t.file = s.file)
    (e3 : t.eof = s.eof) (e4 : t.strace = s.strace) (e5 : t.sndMsg = s.sndMsg) :
    SSt t pc file eof tr :=
  ⟨e1.trans h.pc, e2.trans h.file, e3.trans h.eof, e4.trans h.tr, by rw [e5]; exact h.mtype⟩

/-- A call of the sender leaves the receiver's variables alone. -/
theorem senderStep_frame {e : Env} {s t : Sys} (h : senderStep e s = some t) :
    t.rpc = s.rpc ∧ t.out = s.out ∧ t.rtrace = s.rtrace ∧ t.msgSize = s.msgSize := by
  unfold senderStep at h
  split at h
  all_goals (try dsimp only at h)
  all_goals (try split at h)
  all_goals (try split at h)
  all_goals (cases h <;> exact ⟨rfl, rfl, rfl, rfl⟩)

/-- A call of the receiver leaves the sender's variables and the shared
memory alone. -/
theorem recvStep_frame {e : Env} {s t : Sys} (h : recvStep e s = some t) :
    t.spc = s.spc ∧ t.file = s.file ∧ t.eof = s.eof ∧ t.strace = s.strace ∧
      t.sndMsg = s.sndMsg ∧ t.shm = s.shm := by
  unfold recvStep at h
  split at h
  all_goals (try dsimp only at h)
  all_goals (try split at h)
  all_goals (try split at h)
  all_goals (cases h <;> exact ⟨rfl, rfl, rfl, rfl, rfl, rfl⟩)

theorem inv_sender_step {f : List Nat} {old : Option (List Nat)} {s t : Sys}
    (h : Inv f old s) (hs : senderStep okEnv s = some t) : Inv f old t := by
  obtain ⟨e1, e2, e3, e4⟩ := senderStep_frame hs
  cases h with
  | start hpc hfile htr hq hr =>
    simp [senderStep, hpc, okEnv] at hs
    subst hs
    refine Inv.loopHead _ 0 [] f rfl rfl ⟨rfl, hfile, rfl, ?_, rfl⟩ hq (rwait_frame hr e1 e2 e3)
    simp [htr, sTrace]
  | loopHead k done rest hf hk hS hq hr =>
    simp [senderStep, hS.pc, hS.eof, okEnv] at hs
    subst hs
    exact Inv.fread _ k done rest hf hk ⟨rfl, hS.file, rfl, hS.tr, hS.mtype⟩ hq
      (rwait_frame hr e1 e2 e3)
  | fread k done rest hf hk hS hq hr =>
    have hsz : toInt32 (min 1000 rest.length) = ((min 1000 rest.length : Nat) : Int) :=
      toInt32_small _ (Nat.min_le_left _ _)
    have hnn : ¬ (toInt32 (min 1000 rest.length) < 0) := by rw [hsz]; omega
    simp only [senderStep, hS.pc, hS.eof, hS.file, okEnv, SHARED_MEMORY_CHUNK_SIZE] at hs
    simp [hnn] at hs
    subst hs
    refine Inv.sendData _ k done rest (min 1000 rest.length) hf hk rfl
      ⟨rfl, rfl, ?_, ?_, hS.mtype⟩ ?_ ?_ hq (rwait_frame hr e1 e2 e3)
    · simp
    · simp [hS.tr]
    · simpa using hsz
    · simp
  | sendData k done rest n hf hk hn hS hsz hshm hq hr =>
    simp [senderStep, hS.pc, okEnv] at hs
    subst hs
    refine Inv.sent _ k done rest n hf hk hn ⟨rfl, hS.file, hS.eof, ?_, hS.mtype⟩ hshm ?_
      (rwait_frame hr e1 e2 e3)
    · simp [hS.tr, hS.mtype, hsz, dataMsg]
    · simp [hq, hS.mtype, hsz, dataMsg]
  | sent k done rest n hf hk hn hS hshm hq hr =>
    simp [senderStep, hS.pc, okEnv, hq, dequeue, dataMsg, SENDER_DATA_TYPE, RECV_DONE_TYPE] at hs
  | got k done rest n hf hk hn hS hshm hq hR hms =>
    simp [senderStep, hS.pc, okEnv, hq, dequeue] at hs
  | fwrite k done rest n hf hk hn hpos hS hshm hq hR hms =>
    simp [senderStep, hS.pc, okEnv, hq, dequeue] at hs
  | sendAck k done rest n hf hk hn hpos hS hq hR =>
    simp [senderStep, hS.pc, okEnv, hq, dequeue] at hs
  | acked k done rest n hf hk hn hpos hS hq hR =>
    simp [senderStep, hS.pc, okEnv, hq, dequeue, ackMsg] at hs
    subst hs
    by_cases hfull : n = 1000
    · subst hfull
      have hlen : 1000 ≤ rest.length := by omega
      refine Inv.loopHead _ (k + 1) (done ++ rest.take 1000) (rest.drop 1000) ?_ ?_
        ⟨rfl, hS.file, ?_, ?_, hS.mtype⟩ rfl (Or.inr ⟨?_, hR.out, ?_⟩)
      · simp [hf]
      · simp [hk]; omega
      · simp [hS.eof]
      · simp [hS.tr, sTrace, sCycle, SHARED_MEMORY_CHUNK_SIZE, ackMsg]
      · simp [hR.pc]
      · simp [hR.tr, rTrace, SHARED_MEMORY_CHUNK_SIZE]
    · have hlt : n < 1000 := by omega
      have hrl : rest.length = n := by omega
      have hdrop : rest.drop n = [] := by simp [hrl]
      have htake : rest.take n = rest := by simp [hrl]
      refine Inv.lastHead _ k n ?_ hpos hlt ⟨rfl, ?_, ?_, ?_, hS.mtype⟩ rfl ⟨hR.pc, ?_, hR.tr⟩
      · simp [hf, hk, hrl]
      · simp [hS.file, hdrop]
      · simp [hS.eof, hlt]
      · simp [hS.tr, sCycle, ackMsg]
      · simp [hR.out, htake, hf]
  | lastHead k n hlen hpos hlt hS hq hR =>
    simp [senderStep, hS.pc, hS.eof, okEnv] at hs
    subst hs
    exact Inv.finalSend _ k n hlen hpos hlt ⟨rfl, hS.file, rfl, hS.tr, hS.mtype⟩ hq
      ⟨hR.pc, hR.out, hR.tr⟩
  | finalSend k n hlen hpos hlt hS hq hR =>
    simp [senderStep, hS.pc, okEnv] at hs
    subst hs
    refine Inv.sentinel _ k n hlen hpos hlt ⟨rfl, hS.file, hS.eof, ?_, hS.mtype⟩ ?_
      ⟨hR.pc, hR.out, hR.tr⟩
    · simp [hS.tr, hS.mtype, dataMsg]
    · simp [hq, hS.mtype, dataMsg]
  | sentinel k n hlen hpos hlt hS hq hR => simp [senderStep, hS.pc] at hs
  | gotSentinel k n hlen hpos hlt hS hq hR hms => simp [senderStep, hS.pc] at hs
  | loopDone k n hlen hpos hlt hS hq hR => simp [senderStep, hS.pc] at hs
  | finished k n hlen hpos hlt hS hq hR => simp [senderStep, hS.pc] at hs
  | stuckLoopDone k hlen hS hq hR => simp [senderStep, hS.pc, okEnv, hq, dequeue] at hs
  | stuck k hlen hS hq hR => simp [senderStep, hS.pc, okEnv, hq, dequeue] at hs

/-- The waiting receiver with nothing to receive can only open its file. -/
theorem rwait_step_empty {old : Option (List Nat)} {k : Nat} {done : List Nat} {s t : Sys}
    (hr : RWait old k done s) (hk : done.length = 1000 * k) (hq : s.queue = [])
    (hs : recvStep okEnv s = some t) : RWait old k done t ∧ t.queue = [] := by
  rcases hr with ⟨hk0, hR⟩ | hR
  · subst hk0
    have hd : done = [] := List.length_eq_zero.mp (by omega)
    subst hd
    simp [recvStep, hR.pc, okEnv] at hs
    subst hs
    exact ⟨Or.inr ⟨rfl, rfl, by simp [hR.tr, rTrace]⟩, hq⟩
  · by_cases hk0 : k = 0
    · simp [recvStep, hR.pc, hk0, okEnv, hq, dequeue] at hs
    · simp [recvStep, hR.pc, hk0, okEnv, hq, dequeue] at hs

/-- The waiting receiver with one DATA message queued opens its file or
takes the message. -/
theorem rwait_step_data {old : Option (List Nat)} {k n : Nat} {done : List Nat} {s t : Sys}
    (hr : RWait old k done s) (hk : done.length = 1000 * k) (hq : s.queue = [dataMsg n])
    (hs : recvStep okEnv s = some t) :
    (RWait old k done t ∧ t.queue = [dataMsg n]) ∨
    (RSt t .loopHead (some done) (rTrace k ++ [.msgrcv SENDER_DATA_TYPE (some (dataMsg n))]) ∧
      t.msgSize = (n : Int) ∧ t.queue = []) := by
  rcases hr with ⟨hk0, hR⟩ | hR
  · subst hk0
    have hd : done = [] := List.length_eq_zero.mp (by omega)
    subst hd
    simp [recvStep, hR.pc, okEnv] at hs
    subst hs
    exact Or.inl ⟨Or.inr ⟨rfl, rfl, by simp [hR.tr, rTrace]⟩, hq⟩
  · by_cases hk0 : k = 0
    · simp [recvStep, hR.pc, hk0, okEnv, hq, dequeue, dataMsg] at hs
      subst hs
      exact Or.inr ⟨⟨rfl, hR.out, by simp [hR.tr, dataMsg]⟩, by simp [deliver], rfl⟩
    · simp [recvStep, hR.pc, hk0, okEnv, hq, dequeue, dataMsg] at hs
      subst hs
      exact Or.inr ⟨⟨rfl, hR.out, by simp [hR.tr, dataMsg]⟩, by simp [deliver], rfl⟩

theorem inv_recv_step {f : List Nat} {old : Option (List Nat)} {s t : Sys}
    (h : Inv f old s) (hs : recvStep okEnv s = some t) : Inv f old t := by
  obtain ⟨e1, e2, e3, e4, e5, e6⟩ := recvStep_frame hs
  cases h with
  | start hpc hfile htr hq hr =>
    obtain ⟨hr2, hq2⟩ := rwait_step_empty hr rfl hq hs
    exact Inv.start _ (e1.trans hpc) (e2.trans hfile) (e4.trans htr) hq2 hr2
  | loopHead k done rest hf hk hS hq hr =>
    obtain ⟨hr2, hq2⟩ := rwait_step_empty hr hk hq hs
    exact Inv.loopHead _ k done rest hf hk (sst_frame hS e1 e2 e3 e4 e5) hq2 hr2
  | fread k done rest hf hk hS hq hr =>
    obtain ⟨hr2, hq2⟩ := rwait_step_empty hr hk hq hs
    exact Inv.fread _ k done rest hf hk (sst_frame hS e1 e2 e3 e4 e5) hq2 hr2
  | sendData k done rest n hf hk hn hS hsz hshm hq hr =>
    obtain ⟨hr2, hq2⟩ := rwait_step_empty hr hk hq hs
    exact Inv.sendData _ k done rest n hf hk hn (sst_frame hS e1 e2 e3 e4 e5)
      (by rw [e5]; exact hsz) (by rw [e6]; exact hshm) hq2 hr2
  | sent k done rest n hf hk hn hS hshm hq hr =>
    rcases rwait_step_data hr hk hq hs with ⟨hr2, hq2⟩ | ⟨hR2, hms2, hq2⟩
    · exact Inv.sent _ k done rest n hf hk hn (sst_frame hS e1 e2 e3 e4 e5)
        (by rw [e6]; exact hshm) hq2 hr2
    · exact Inv.got _ k done rest n hf hk hn (sst_frame hS e1 e2 e3 e4 e5)
        (by rw [e6]; exact hshm) hq2 hR2 hms2
  | got k done rest n hf hk hn hS hshm hq hR hms =>
    by_cases hn0 : n = 0
    · subst hn0
      have hrest : rest = [] := by
        have : rest.length = 0 := by omega
        exact List.length_eq_zero.mp this
      subst hrest
      simp [recvStep, hR.pc, hms] at hs
      subst hs
      refine Inv.stuckLoopDone _ k (by simp [hf, hk]) ⟨hS.pc, ?_, ?_, hS.tr, hS.mtype⟩ hq
        ⟨rfl, ?_, hR.tr⟩
      · simpa using hS.file
      · simpa using hS.eof
      · simp [hR.out, hf]
    · have hne : ¬ ((n : Int) = 0) := by omega
      simp [recvStep, hR.pc, hms, hn0] at hs
      subst hs
      exact Inv.fwrite _ k done rest n hf hk hn (by omega) (sst_frame hS e1 e2 e3 e4 e5)
        hshm hq ⟨rfl, hR.out, hR.tr⟩ rfl
  | fwrite k done rest n hf hk hn hpos hS hshm hq hR hms =>
    have hsz : toSizeT (n : Int) = n := toSizeT_natCast n (by omega)
    simp [recvStep, hR.pc, hms, hsz, okEnv, hR.out, hshm] at hs
    subst hs
    exact Inv.sendAck _ k done rest n hf hk hn hpos (sst_frame hS e1 e2 e3 e4 e5) hq
      ⟨rfl, by simp, by simp [hR.tr]⟩
  | sendAck k done rest n hf hk hn hpos hS hq hR =>
    simp [recvStep, hR.pc, okEnv] at hs
    subst hs
    exact Inv.acked _ k done rest n hf hk hn hpos (sst_frame hS e1 e2 e3 e4 e5)
      (by simp [hq, ackMsg]) ⟨rfl, hR.out, by simp [hR.tr, rCycle, ackMsg]⟩
  | acked k done rest n hf hk hn hpos hS hq hR =>
    simp [recvStep, hR.pc, okEnv, hq, dequeue, ackMsg, SENDER_DATA_TYPE, RECV_DONE_TYPE] at hs
  | lastHead k n hlen hpos hlt hS hq hR =>
    simp [recvStep, hR.pc, okEnv, hq, dequeue] at hs
  | finalSend k n hlen hpos hlt hS hq hR =>
    simp [recvStep, hR.pc, okEnv, hq, dequeue] at hs
  | sentinel k n hlen hpos hlt hS hq hR =>
    simp [recvStep, hR.pc, okEnv, hq, dequeue, dataMsg] at hs
    subst hs
    exact Inv.gotSentinel _ k n hlen hpos hlt (sst_frame hS e1 e2 e3 e4 e5) rfl
      ⟨rfl, hR.out, by simp [hR.tr, dataMsg]⟩ (by simp [deliver])
  | gotSentinel k n hlen hpos hlt hS hq hR hms =>
    simp [recvStep, hR.pc, hms] at hs
    subst hs
    exact Inv.loopDone _ k n hlen hpos hlt (sst_frame hS e1 e2 e3 e4 e5) hq ⟨rfl, hR.out, hR.tr⟩
  | loopDone k n hlen hpos hlt hS hq hR =>
    simp [recvStep, hR.pc] at hs
    subst hs
    exact Inv.finished _ k n hlen hpos hlt (sst_frame hS e1 e2 e3 e4 e5) hq
      ⟨rfl, hR.out, by simp [hR.tr]⟩
  | finished k n hlen hpos hlt hS hq hR => simp [recvStep, hR.pc] at hs
  | stuckLoopDone k hlen hS hq hR =>
    simp [recvStep, hR.pc] at hs
    subst hs
    exact Inv.stuck _ k hlen (sst_frame hS e1 e2 e3 e4 e5) hq ⟨rfl, hR.out, by simp [hR.tr]⟩
  | stuck k hlen hS hq hR => simp [recvStep, hR.pc] at hs

theorem inv_step {f : List Nat} {old : Option (List Nat)} {s t : Sys} (r : Role)
    (h : Inv f old s) (hs : step r okEnv s = some t) : Inv f old t := by
  cases r
  · exact inv_sender_step h hs
  · exact inv_recv_step h hs

theorem inv_exec {f : List Nat} {old : Option (List Nat)} (sched : List Role) :
    ∀ s : Sys, Inv f old s → Inv f old (exec (okSched sched) s) := by
  induction sched with
  | nil => intro s h; exact h
  | cons r rest ih =>
    intro s h
    simp only [okSched, List.map_cons, exec]
    cases hs : step r okEnv s with
    | none => exact ih s h
    | some t => exact ih t (inv_step r h hs)

theorem next_some {s t : Sys} (h : next s = some t) :
    step .sender okEnv s = some t ∨ step .receiver okEnv s = some t := by
  unfold next at h
  split at h
  · rename_i u hu
    cases h
    exact Or.inl hu
  · exact Or.inr h

theorem next_none {s : Sys} (h : next s = none) : quiescent s := by
  unfold next at h
  split at h
  · cases h
  · rename_i hu
    exact ⟨hu, h⟩

/-! ### The failure-free run comes to rest -/

theorem dataCount_append (q : List KMsg) (m : KMsg) :
    dataCount (q ++ [m]) = dataCount q + dataCount [m] := by
  induction q with
  | nil => simp [dataCount]
  | cons a q ih =>
    show dataCount (a :: (q ++ [m])) = _
    simp only [dataCount, ih]
    split <;> omega

theorem dataCount_single_le (m : KMsg) : dataCount [m] ≤ 1 := by
  simp only [dataCount]
  split <;> omega

theorem dequeue_data {q q2 : List KMsg} {m : KMsg}
    (h : dequeue SENDER_DATA_TYPE q = some (m, q2)) : dataCount q = dataCount q2 + 1 := by
  induction q generalizing q2 m with
  | nil => simp [dequeue] at h
  | cons a q ih =>
    unfold dequeue at h
    split at h
    · rename_i ha
      cases h
      simp [dataCount, ha]
    · rename_i ha
      split at h
      · cases h
      · rename_i x q3 hx
        cases h
        simp [dataCount, ha, ih hx]

theorem dequeue_ack {q q2 : List KMsg} {m : KMsg}
    (h : dequeue RECV_DONE_TYPE q = some (m, q2)) : dataCount q = dataCount q2 := by
  induction q generalizing q2 m with
  | nil => simp [dequeue] at h
  | cons a q ih =>
    unfold dequeue at h
    split at h
    · rename_i ha
      cases h
      simp [dataCount, ha, SENDER_DATA_TYPE, RECV_DONE_TYPE]
    · rename_i ha
      split at h
      · cases h
      · rename_i x q3 hx
        cases h
        simp only [dataCount, ih hx]

theorem sender_measure {s t : Sys} (hs : senderStep okEnv s = some t)
    (hfr : s.spc = .fread → s.eof = false) : fuelBound t < fuelBound s := by
  unfold senderStep at hs
  split at hs
  · rename_i hpc
    simp [okEnv] at hs
    subst hs
    simp [fuelBound, hpc, srank]
    split <;> omega
  · rename_i hpc
    split at hs <;> cases hs <;> simp [fuelBound, hpc, srank]
  · rename_i hpc
    have he := hfr hpc
    have hsz : ¬ (toInt32 (min 1000 s.file.length) < 0) := by
      rw [toInt32_small _ (Nat.min_le_left _ _)]; omega
    simp [okEnv, SHARED_MEMORY_CHUNK_SIZE, hsz, he] at hs
    subst hs
    simp [fuelBound, hpc, srank, he]
    split <;> omega
  · rename_i hpc
    simp [okEnv] at hs
    subst hs
    simp only [fuelBound, hpc, srank, dataCount_append]
    have h1 := dataCount_single_le { mtype := s.sndMsg.mtype, mtext := some s.sndMsg.size }
    have h2 := dataCount_single_le { mtype := s.sndMsg.mtype, mtext := some 0 }
    omega
  · rename_i hpc
    simp [okEnv] at hs
    split at hs
    · cases hs
    · rename_i m q hd
      cases hs
      simp [fuelBound, hpc, srank, dequeue_ack hd]
  · rename_i hpc
    simp [okEnv] at hs
    subst hs
    simp only [fuelBound, hpc, srank, dataCount_append]
    have h1 := dataCount_single_le { mtype := s.sndMsg.mtype, mtext := some s.sndMsg.size }
    have h2 := dataCount_single_le { mtype := s.sndMsg.mtype, mtext := some 0 }
    omega
  · cases hs
  · cases hs

theorem recv_measure {s t : Sys} (hs : recvStep okEnv s = some t) :
    fuelBound t < fuelBound s := by
  unfold recvStep at hs
  split at hs
  · rename_i hpc
    simp [okEnv] at hs
    subst hs
    simp [fuelBound, hpc, rrank]
  · rename_i hpc
    simp [okEnv] at hs
    split at hs
    · cases hs
    · rename_i m q hd
      cases hs
      simp [fuelBound, hpc, rrank, dequeue_data hd]
      omega
  · rename_i hpc
    split at hs <;> cases hs <;> simp [fuelBound, hpc, rrank]
  · rename_i hpc
    simp [okEnv] at hs
    subst hs
    simp [fuelBound, hpc, rrank]
  · rename_i hpc
    simp [okEnv] at hs
    subst hs
    simp [fuelBound, hpc, rrank, dataCount_append, dataCount, SENDER_DATA_TYPE, RECV_DONE_TYPE]
  · rename_i hpc
    simp [okEnv] at hs
    split at hs
    · cases hs
    · rename_i m q hd
      cases hs
      simp [fuelBound, hpc, rrank, dequeue_data hd]
      omega
  · rename_i hpc
    cases hs
    simp [fuelBound, hpc, rrank]
  · cases hs

theorem inv_fread_eof {f : List Nat} {old : Option (List Nat)} {s : Sys}
    (h : Inv f old s) (hpc : s.spc = .fread) : s.eof = false := by
  cases h with
  | start hpc2 => simp [hpc2] at hpc
  | fread k done rest hf hk hS => exact hS.eof
  | loopHead k done rest hf hk hS => simp [hS.pc] at hpc
  | sendData k done rest n hf hk hn hS => simp [hS.pc] at hpc
  | sent k done rest n hf hk hn hS => simp [hS.pc] at hpc
  | got k done rest n hf hk hn hS => simp [hS.pc] at hpc
  | fwrite k done rest n hf hk hn hpos hS => simp [hS.pc] at hpc
  | sendAck k done rest n hf hk hn hpos hS => simp [hS.pc] at hpc
  | acked k done rest n hf hk hn hpos hS => simp [hS.pc] at hpc
  | lastHead k n hlen hpos hlt hS => simp [hS.pc] at hpc
  | finalSend k n hlen hpos hlt hS => simp [hS.pc] at hpc
  | sentinel k n hlen hpos hlt hS => simp [hS.pc] at hpc
  | gotSentinel k n hlen hpos hlt hS => simp [hS.pc] at hpc
  | loopDone k n hlen hpos hlt hS => simp [hS.pc] at hpc
  | finished k n hlen hpos hlt hS => simp [hS.pc] at hpc
  | stuckLoopDone k hlen hS => simp [hS.pc] at hpc
  | stuck k hlen hS => simp [hS.pc] at hpc

theorem next_measure {f : List Nat} {old : Option (List Nat)} {s t : Sys}
    (h : Inv f old s) (hs : next s = some t) : fuelBound t < fuelBound s := by
  rcases next_some hs with h1 | h1
  · exact sender_measure h1 (inv_fread_eof h)
  · exact recv_measure h1

theorem inv_next {f : List Nat} {old : Option (List Nat)} {s t : Sys}
    (h : Inv f old s) (hs : next s = some t) : Inv f old t := by
  rcases next_some hs with h1 | h1
  · exact inv_step .sender h h1
  · exact inv_step .receiver h h1

/-- With fuel above the fuelBound the failure-free run ends in a state in
which no process can move. -/
theorem run_quiescent {f : List Nat} {old : Option (List Nat)} :
    ∀ (n : Nat) (s : Sys), Inv f old s → fuelBound s ≤ n →
      quiescent (run n s) ∧ Inv f old (run n s) := by
  intro n
  induction n with
  | zero =>
    intro s h hm
    cases hs : next s with
    | none => exact ⟨by simpa [run] using next_none hs, by simpa [run] using h⟩
    | some t =>
      have := next_measure h hs
      omega
  | succ n ih =>
    intro s h hm
    cases hs : next s with
    | none =>
      simp only [run, hs]
      exact ⟨next_none hs, h⟩
    | some t =>
      simp only [run, hs]
      exact ih t (inv_next h hs) (by have := next_measure h hs; omega)

/-- A failure-free run with fuel is the run of a schedule. -/
theorem run_eq_exec : ∀ (n : Nat) (s : Sys), ∃ sched : List Role,
    run n s = exec (okSched sched) s := by
  intro n
  induction n with
  | zero => intro s; exact ⟨[], rfl⟩
  | succ n ih =>
    intro s
    cases hs : next s with
    | none => exact ⟨[], by simp [run, hs, okSched, exec]⟩
    | some t =>
      obtain ⟨sched, hsched⟩ := ih t
      rcases next_some hs with h1 | h1
      · exact ⟨.sender :: sched, by simp [run, hs, okSched, exec, h1, hsched]⟩
      · exact ⟨.receiver :: sched, by simp [run, hs, okSched, exec, h1, hsched]⟩

theorem measure_init (f : List Nat) (old : Option (List Nat)) (shm0 : List Nat) :
    fuelBound (init f old shm0) = 8 * (f.length + 1) + 17 := by
  simp [fuelBound, init, srank, rrank, dataCount]

theorem inv_quiescent {f : List Nat} {old : Option (List Nat)} {s : Sys}
    (h : Inv f old s) (hq : quiescent s) :
    (∃ k, EndBlocked f s k) ∨ (∃ k n, EndFinished f s k n) := by
  obtain ⟨hq1, hq2⟩ := hq
  simp only [step] at hq1 hq2
  cases h with
  | start hpc hfile htr hq hr => simp [senderStep, hpc, okEnv] at hq1
  | loopHead k done rest hf hk hS hq hr => simp [senderStep, hS.pc, hS.eof] at hq1
  | fread k done rest hf hk hS hq hr =>
    have hnn : ¬ (toInt32 (min 1000 rest.length) < 0) := by
      rw [toInt32_small _ (Nat.min_le_left _ _)]; omega
    simp only [senderStep, hS.pc, hS.eof, hS.file, okEnv, SHARED_MEMORY_CHUNK_SIZE] at hq1
    simp [hnn] at hq1
  | sendData k done rest n hf hk hn hS hsz hshm hq hr =>
    simp [senderStep, hS.pc, okEnv] at hq1
  | sent k done rest n hf hk hn hS hshm hq hr =>
    rcases hr with ⟨hk0, hR⟩ | hR
    · simp [recvStep, hR.pc, okEnv] at hq2
    · by_cases hk0 : k = 0
      · simp [recvStep, hR.pc, hk0, okEnv, hq, dequeue, dataMsg] at hq2
      · simp [recvStep, hR.pc, hk0, okEnv, hq, dequeue, dataMsg] at hq2
  | got k done rest n hf hk hn hS hshm hq hR hms =>
    by_cases h0 : s.msgSize = 0 <;> simp [recvStep, hR.pc, h0] at hq2
  | fwrite k done rest n hf hk hn hpos hS hshm hq hR hms =>
    simp [recvStep, hR.pc] at hq2
  | sendAck k done rest n hf hk hn hpos hS hq hR =>
    simp [recvStep, hR.pc, okEnv] at hq2
  | acked k done rest n hf hk hn hpos hS hq hR =>
    simp [senderStep, hS.pc, okEnv, hq, dequeue, ackMsg] at hq1
  | lastHead k n hlen hpos hlt hS hq hR => simp [senderStep, hS.pc, hS.eof] at hq1
  | finalSend k n hlen hpos hlt hS hq hR => simp [senderStep, hS.pc, okEnv] at hq1
  | sentinel k n hlen hpos hlt hS hq hR =>
    simp [recvStep, hR.pc, okEnv, hq, dequeue, dataMsg] at hq2
  | gotSentinel k n hlen hpos hlt hS hq hR hms => simp [recvStep, hR.pc, hms] at hq2
  | loopDone k n hlen hpos hlt hS hq hR => simp [recvStep, hR.pc] at hq2
  | finished k n hlen hpos hlt hS hq hR => exact Or.inr ⟨k, n, ⟨hlen, hpos, hlt, hS, hq, hR⟩⟩
  | stuckLoopDone k hlen hS hq hR => simp [recvStep, hR.pc] at hq2
  | stuck k hlen hS hq hR => exact Or.inl ⟨k, ⟨hlen, hS, hq, hR⟩⟩

/-! ### What the traces of a failure-free run contain -/

theorem dataSizes_append (a b : List Ev) : dataSizes (a ++ b) = dataSizes a ++ dataSizes b := by
  simp [dataSizes, List.filterMap_append]

theorem acksSent_append (a b : List Ev) : acksSent (a ++ b) = acksSent a + acksSent b := by
  simp [acksSent, List.countP_append]

theorem acksReceived_append (a b : List Ev) :
    acksReceived (a ++ b) = acksReceived a + acksReceived b := by
  simp [acksReceived, List.countP_append]

theorem bytesWritten_append (a b : List Ev) :
    bytesWritten (a ++ b) = bytesWritten a + bytesWritten b := by
  induction a with
  | nil => simp [bytesWritten]
  | cons e a ih =>
    cases e <;> simp [bytesWritten, ih]
    omega

theorem dataSizes_sCycle (n : Nat) : dataSizes (sCycle n) = [(n : Int)] := by
  simp [dataSizes, sCycle, dataSize?, dataMsg, List.filterMap_cons]

theorem dataSizes_sTrace (k : Nat) :
    dataSizes (sTrace k) = List.replicate k (1000 : Int) := by
  induction k with
  | zero => simp [sTrace, dataSizes, dataSize?, List.filterMap_cons]
  | succ k ih =>
    simp [sTrace, dataSizes_append, ih, dataSizes_sCycle, SHARED_MEMORY_CHUNK_SIZE,
      List.replicate_succ']

theorem acksSent_rCycle (n : Nat) : acksSent (rCycle n) = 1 := by
  simp [acksSent, rCycle, isAckSend, ackMsg, List.countP_cons]

theorem acksSent_rTrace (k : Nat) : acksSent (rTrace k) = k := by
  induction k with
  | zero => simp [rTrace, acksSent, isAckSend, List.countP_cons]
  | succ k ih => simp [rTrace, acksSent_append, ih, acksSent_rCycle]

theorem acksReceived_sCycle (n : Nat) : acksReceived (sCycle n) = 1 := by
  simp [acksReceived, sCycle, isAckRecv, ackMsg, List.countP_cons]

theorem acksReceived_sTrace (k : Nat) : acksReceived (sTrace k) = k := by
  induction k with
  | zero => simp [sTrace, acksReceived, isAckRecv, List.countP_cons]
  | succ k ih => simp [sTrace, acksReceived_append, ih, acksReceived_sCycle]

theorem bytesWritten_rCycle (n : Nat) : bytesWritten (rCycle n) = n := by
  simp [bytesWritten, rCycle]

theorem bytesWritten_rTrace (k : Nat) : bytesWritten (rTrace k) = 1000 * k := by
  induction k with
  | zero => simp [rTrace, bytesWritten]
  | succ k ih =>
    simp [rTrace, bytesWritten_append, ih, bytesWritten_rCycle, SHARED_MEMORY_CHUNK_SIZE]
    omega

theorem inv_runOf (sched : List Role) (f : List Nat) (old : Option (List Nat))
    (shm0 : List Nat) : Inv f old (runOf sched f old shm0) :=
  inv_exec sched _ (inv_init f old shm0)

theorem run_init_quiescent (f : List Nat) (old : Option (List Nat)) (shm0 : List Nat) :
    quiescent (run (8 * (f.length + 1) + 17) (init f old shm0)) ∧
      Inv f old (run (8 * (f.length + 1) + 17) (init f old shm0)) :=
  run_quiescent _ _ (inv_init f old shm0) (by rw [measure_init])

theorem endFinished_div {f : List Nat} {s : Sys} {k n : Nat} (h : EndFinished f s k n) :
    k = f.length / 1000 ∧ n = f.length % 1000 := by
  have h1 := h.len
  have h2 := h.pos
  have h3 := h.lt
  omega

theorem endBlocked_div {f : List Nat} {s : Sys} {k : Nat} (h : EndBlocked f s k) :
    k = f.length / 1000 ∧ f.length % 1000 = 0 := by
  have h1 := h.len
  omega

theorem fclose_not_mem_rTrace (k : Nat) : Ev.fclose ∉ rTrace k := by
  induction k with
  | zero => simp [rTrace]
  | succ k ih => simp [rTrace, rCycle, ih]

/-- What the end of a failure-free run looks like when the input length is
not a multiple of the chunk size. -/
theorem end_of_short_tail {f : List Nat} {old : Option (List Nat)} {s : Sys}
    (h : Inv f old s) (hq : quiescent s) (hmod : f.length % 1000 ≠ 0) :
    EndFinished f s (f.length / 1000) (f.length % 1000) := by
  rcases inv_quiescent h hq with ⟨k, hb⟩ | ⟨k, n, hfin⟩
  · exact absurd (endBlocked_div hb).2 hmod
  · obtain ⟨hk, hn⟩ := endFinished_div hfin
    subst hk
    rw [← hn]
    exact hfin

/-- What the end of a failure-free run looks like when the input length is
a multiple of the chunk size. -/
theorem end_of_multiple {f : List Nat} {old : Option (List Nat)} {s : Sys}
    (h : Inv f old s) (hq : quiescent s) (hmod : f.length % 1000 = 0) :
    EndBlocked f s (f.length / 1000) := by
  rcases inv_quiescent h hq with ⟨k, hb⟩ | ⟨k, n, hfin⟩
  · obtain ⟨hk, _⟩ := endBlocked_div hb
    subst hk
    exact hb
  · obtain ⟨_, hn⟩ := endFinished_div hfin
    have := hfin.pos
    omega

theorem out_of_quiescent {f : List Nat} {old : Option (List Nat)} {s : Sys}
    (h : Inv f old s) (hq : quiescent s) :
    s.rpc = .exited 0 ∧ s.out = some f ∧ bytesWritten s.rtrace = f.length := by
  rcases inv_quiescent h hq with ⟨k, hb⟩ | ⟨k, n, hfin⟩
  · refine ⟨hb.R.pc, hb.R.out, ?_⟩
    rw [hb.R.tr, bytesWritten_append, bytesWritten_rTrace, hb.len]
    simp [bytesWritten]
  · refine ⟨hfin.R.pc, hfin.R.out, ?_⟩
    rw [hfin.R.tr, bytesWritten_append, bytesWritten_append, bytesWritten_rTrace,
      bytesWritten_rCycle, hfin.len]
    simp [bytesWritten]

/-- C1: round-trip fidelity.  For every input `f` (of any length, zero and
the multiples of 1000 included), whatever `recvfile` held before and
whatever the shared segment held: the failure-free run of `send()` against
`mainLoop()` reaches a state in which no process can move, and in every
such state, under every interleaving of the two processes, the receiver has
left its loop, `recvfile` holds exactly the bytes of `f` in order, and the
fwrite calls together wrote exactly `f.length` bytes. -/
theorem roundtrip_fidelity (f : List Nat) (old : Option (List Nat)) (shm0 : List Nat) :
    (∃ n, quiescent (run n (init f old shm0)) ∧ (run n (init f old shm0)).out = some f) ∧
    ∀ sched : List Role, quiescent (runOf sched f old shm0) →
      (runOf sched f old shm0).rpc = .exited 0 ∧
      (runOf sched f old shm0).out = some f ∧
      bytesWritten (runOf sched f old shm0).rtrace = f.length := by
  constructor
  · obtain ⟨hq, hinv⟩ := run_init_quiescent f old shm0
    exact ⟨_, hq, (out_of_quiescent hinv hq).2.1⟩
  · intro sched hq
    exact out_of_quiescent (inv_runOf sched f old shm0) hq

/-- Witness for C1: a three-byte file, one complete interleaving. -/
theorem roundtrip_fidelity_witness :
    quiescent (runOf [.receiver, .sender, .sender, .receiver, .sender, .sender, .receiver,
        .receiver, .receiver, .receiver, .sender, .sender, .sender, .receiver, .receiver,
        .receiver] [7, 8, 9] none [0, 0, 0, 0]) ∧
    (runOf [.receiver, .sender, .sender, .receiver, .sender, .sender, .receiver,
        .receiver, .receiver, .receiver, .sender, .sender, .sender, .receiver, .receiver,
        .receiver] [7, 8, 9] none [0, 0, 0, 0]).out = some [7, 8, 9] :=
  ⟨by decide, ((roundtrip_fidelity [7, 8, 9] none [0, 0, 0, 0]).2 _ (by decide)).2.1⟩

theorem dataSizes_finished {f : List Nat} {s : Sys} {k n : Nat} (h : EndFinished f s k n) :
    dataSizes s.strace = List.replicate k (1000 : Int) ++ [(n : Int), 0] := by
  rw [h.S.tr, dataSizes_append, dataSizes_append, dataSizes_sTrace, dataSizes_sCycle]
  simp [dataSizes, dataSize?, dataMsg, List.filterMap_cons]

theorem acksSent_finished {f : List Nat} {s : Sys} {k n : Nat} (h : EndFinished f s k n) :
    acksSent s.rtrace = k + 1 := by
  rw [h.R.tr, acksSent_append, acksSent_append, acksSent_rTrace, acksSent_rCycle]
  simp [acksSent, isAckSend, List.countP_cons]

theorem acksReceived_finished {f : List Nat} {s : Sys} {k n : Nat}
    (h : EndFinished f s k n) : acksReceived s.strace = k + 1 := by
  rw [h.S.tr, acksReceived_append, acksReceived_append, acksReceived_sTrace,
    acksReceived_sCycle]
  simp [acksReceived, isAckRecv, List.countP_cons]

theorem dataSizes_blocked {f : List Nat} {s : Sys} {k : Nat} (h : EndBlocked f s k) :
    dataSizes s.strace = List.replicate k (1000 : Int) ++ [0] := by
  rw [h.S.tr, dataSizes_append, dataSizes_sTrace]
  simp [dataSizes, dataSize?, dataMsg, List.filterMap_cons]

theorem acksSent_blocked {f : List Nat} {s : Sys} {k : Nat} (h : EndBlocked f s k) :
    acksSent s.rtrace = k := by
  rw [h.R.tr, acksSent_append, acksSent_rTrace]
  simp [acksSent, isAckSend, List.countP_cons]

theorem short_tail_facts {f : List Nat} {old : Option (List Nat)} {s : Sys}
    (h : Inv f old s) (hq : quiescent s) (hmod : f.length % 1000 ≠ 0) :
    s.spc = .returned ∧ s.rpc = .exited 0 ∧
    s.strace = sTrace (f.length / 1000) ++ sCycle (f.length % 1000) ++
      [.msgsnd (dataMsg 0) true, .fclose] ∧
    dataSizes s.strace =
      List.replicate (f.length / 1000) (1000 : Int) ++ [((f.length % 1000 : Nat) : Int), 0] ∧
    s.rtrace = rTrace (f.length / 1000) ++ rCycle (f.length % 1000) ++
      [.msgrcv SENDER_DATA_TYPE (some (dataMsg 0)), .exit 0] ∧
    acksSent s.rtrace = f.length / 1000 + 1 := by
  have hfin := end_of_short_tail h hq hmod
  exact ⟨hfin.S.pc, hfin.R.pc, hfin.S.tr, dataSizes_finished hfin, hfin.R.tr,
    acksSent_finished hfin⟩

/-- C10: for every input of `N > 0` bytes with `N` not a multiple of 1000,
when every call succeeds (fread returning `min 1000 remaining` bytes and
setting end-of-file exactly when it returns fewer than 1000): the run of
`send()` against `mainLoop()`, given enough fuel, reaches a state in which
no process can move, and in that state, as in every such state under every
interleaving, `send()` has returned and the receiver has left its loop and
exited with status 0; the sender made `N / 1000` rounds fread 1000 / DATA
1000 / ACK, one round with `N % 1000` bytes, and then sent one DATA of size
0 after its loop and closed the file; the receiver acknowledged each nonzero
DATA message, `N / 1000 + 1` ACKs in all, and sent nothing after the DATA of
size 0. -/
theorem short_last_chunk_run (f : List Nat) (old : Option (List Nat)) (shm0 : List Nat)
    (hpos : 0 < f.length) (hmod : f.length % 1000 ≠ 0) :
    (∃ n, quiescent (run n (init f old shm0)) ∧
      (run n (init f old shm0)).spc = .returned ∧
      (run n (init f old shm0)).rpc = .exited 0 ∧
      dataSizes (run n (init f old shm0)).strace =
        List.replicate (f.length / 1000) (1000 : Int) ++ [((f.length % 1000 : Nat) : Int), 0] ∧
      acksSent (run n (init f old shm0)).rtrace = f.length / 1000 + 1) ∧
    ∀ sched : List Role, quiescent (runOf sched f old shm0) →
      (runOf sched f old shm0).spc = .returned ∧
      (runOf sched f old shm0).rpc = .exited 0 ∧
      (runOf sched f old shm0).strace =
        sTrace (f.length / 1000) ++ sCycle (f.length % 1000) ++
          [.msgsnd (dataMsg 0) true, .fclose] ∧
      dataSizes (runOf sched f old shm0).strace =
        List.replicate (f.length / 1000) (1000 : Int) ++ [((f.length % 1000 : Nat) : Int), 0] ∧
      (runOf sched f old shm0).rtrace =
        rTrace (f.length / 1000) ++ rCycle (f.length % 1000) ++
          [.msgrcv SENDER_DATA_TYPE (some (dataMsg 0)), .exit 0] ∧
      acksSent (runOf sched f old shm0).rtrace = f.length / 1000 + 1 := by
  have _ := hpos
  constructor
  · obtain ⟨hq, hinv⟩ := run_init_quiescent f old shm0
    obtain ⟨h1, h2, _, h4, _, h6⟩ := short_tail_facts hinv hq hmod
    exact ⟨_, hq, h1, h2, h4, h6⟩
  · intro sched hq
    exact short_tail_facts (inv_runOf sched f old shm0) hq hmod

/-- Witness for C10: a three-byte file, one complete interleaving. -/
theorem short_last_chunk_run_witness :
    (0 < [7, 8, 9].length ∧ [7, 8, 9].length % 1000 ≠ 0) ∧
    dataSizes (runOf [.receiver, .sender, .sender, .sender, .sender, .receiver, .receiver,
        .receiver, .receiver, .sender, .sender, .sender, .receiver, .receiver, .receiver]
        [7, 8, 9] none []).strace =
      List.replicate ([7, 8, 9].length / 1000) (1000 : Int) ++
        [(([7, 8, 9].length % 1000 : Nat) : Int), 0] :=
  ⟨by decide,
    ((short_last_chunk_run [7, 8, 9] none [] (by decide) (by decide)).2 _ (by decide)).2.2.2.1⟩

theorem facts_2007 {f : List Nat} {old : Option (List Nat)} {s : Sys}
    (h : Inv f old s) (hq : quiescent s) (hlen : f.length = 2007) :
    dataSizes s.strace = [1000, 1000, 7, 0] ∧ acksSent s.rtrace = 3 ∧
      acksReceived s.strace = 3 := by
  have hfin := end_of_short_tail h hq (by omega)
  have hk : f.length / 1000 = 2 := by omega
  have hn : f.length % 1000 = 7 := by omega
  rw [hk, hn] at hfin
  refine ⟨?_, acksSent_finished hfin, acksReceived_finished hfin⟩
  rw [dataSizes_finished hfin]
  rfl

/-- C3, as the code behaves: for every input of exactly 2007 bytes, when
every call succeeds, the run, given enough fuel, reaches a state in which
no process can move, and in that state, as in every such state under every
interleaving, the sender has sent DATA messages of sizes 1000, 1000, 7 and
then one of size 0, and the receiver has sent exactly three ACK messages,
one for each nonzero DATA message, all of which the sender received. -/
theorem scenario_2007 (f : List Nat) (old : Option (List Nat)) (shm0 : List Nat)
    (hlen : f.length = 2007) :
    (∃ n, quiescent (run n (init f old shm0)) ∧
      dataSizes (run n (init f old shm0)).strace = [1000, 1000, 7, 0] ∧
      acksSent (run n (init f old shm0)).rtrace = 3 ∧
      acksReceived (run n (init f old shm0)).strace = 3) ∧
    ∀ sched : List Role, quiescent (runOf sched f old shm0) →
      dataSizes (runOf sched f old shm0).strace = [1000, 1000, 7, 0] ∧
      acksSent (runOf sched f old shm0).rtrace = 3 ∧
      acksReceived (runOf sched f old shm0).strace = 3 := by
  constructor
  · obtain ⟨hq, hinv⟩ := run_init_quiescent f old shm0
    exact ⟨_, hq, facts_2007 hinv hq hlen⟩
  · intro sched hq
    exact facts_2007 (inv_runOf sched f old shm0) hq hlen

/-- Witness for C3 as amended: the file of 2007 zero bytes. -/
theorem scenario_2007_witness :
    (List.replicate 2007 0).length = 2007 ∧
    ∃ n, quiescent (run n (init (List.replicate 2007 0) none [])) ∧
      dataSizes (run n (init (List.replicate 2007 0) none [])).strace = [1000, 1000, 7, 0] ∧
      acksSent (run n (init (List.replicate 2007 0) none [])).rtrace = 3 ∧
      acksReceived (run n (init (List.replicate 2007 0) none [])).strace = 3 :=
  ⟨List.length_replicate 2007 0,
    (scenario_2007 (List.replicate 2007 0) none [] (List.length_replicate 2007 0)).1⟩

/-- C3 as stated fails: on the file of 2007 zero bytes the failure-free run
ends with the four DATA messages 1000, 1000, 7, 0 sent and three ACK
messages sent, not two. -/
theorem two_acks_refuted_on_2007 :
    quiescent (run 16081 (init (List.replicate 2007 0) none [])) ∧
    dataSizes (run 16081 (init (List.replicate 2007 0) none [])).strace = [1000, 1000, 7, 0] ∧
    acksSent (run 16081 (init (List.replicate 2007 0) none [])).rtrace = 3 ∧
    acksSent (run 16081 (init (List.replicate 2007 0) none [])).rtrace ≠ 2 := by
  have h := run_init_quiescent (List.replicate 2007 0) none []
  simp only [List.length_replicate] at h
  obtain ⟨hq, hinv⟩ := h
  have hfin := end_of_short_tail hinv hq (by rw [List.length_replicate]; decide)
  simp only [List.length_replicate] at hfin
  have e1 : dataSizes (run 16081 (init (List.replicate 2007 0) none [])).strace
      = [1000, 1000, 7, 0] := by
    rw [dataSizes_finished hfin]; rfl
  have e2 := acksSent_finished hfin
  exact ⟨hq, e1, e2, by rw [e2]; decide⟩

theorem empty_file_facts {old : Option (List Nat)} {s : Sys}
    (h : Inv [] old s) (hq : quiescent s) :
    dataSizes s.strace = [0] ∧ acksSent s.rtrace = 0 ∧ s.out = some [] ∧
      bytesWritten s.rtrace = 0 := by
  have hb := end_of_multiple h hq (by simp)
  have ho := out_of_quiescent h hq
  have h1 := dataSizes_blocked hb
  have h2 := acksSent_blocked hb
  simp only [List.length_nil, Nat.zero_div] at h1 h2
  exact ⟨by simpa using h1, h2, ho.2.1, by simpa using ho.2.2⟩

/-- C4: for a zero-byte input file, whatever `recvfile` and the shared
segment held before, the failure-free run of `send()` against `mainLoop()`,
given enough fuel, reaches a state in which no process can move, and in
that state, as in every such state under every interleaving: exactly one
DATA message has been sent, of size 0; no ACK message has been sent;
`recvfile` exists and is empty, and no byte was written to it. -/
theorem empty_file_scenario (old : Option (List Nat)) (shm0 : List Nat) :
    (∃ n, quiescent (run n (init [] old shm0)) ∧
      dataSizes (run n (init [] old shm0)).strace = [0] ∧
      acksSent (run n (init [] old shm0)).rtrace = 0 ∧
      (run n (init [] old shm0)).out = some [] ∧
      bytesWritten (run n (init [] old shm0)).rtrace = 0) ∧
    ∀ sched : List Role, quiescent (runOf sched [] old shm0) →
      dataSizes (runOf sched [] old shm0).strace = [0] ∧
      acksSent (runOf sched [] old shm0).rtrace = 0 ∧
      (runOf sched [] old shm0).out = some [] ∧
      bytesWritten (runOf sched [] old shm0).rtrace = 0 := by
  constructor
  · obtain ⟨hq, hinv⟩ := run_init_quiescent [] old shm0
    exact ⟨_, hq, empty_file_facts hinv hq⟩
  · intro sched hq
    exact empty_file_facts (inv_runOf sched [] old shm0) hq

/-- Witness for C4: the empty file, `recvfile` holding stale bytes. -/
theorem empty_file_scenario_witness :
    quiescent (runOf [.receiver, .sender, .sender, .sender, .sender, .receiver, .receiver,
      .receiver] [] (some [1, 2]) [5, 5]) ∧
    (runOf [.receiver, .sender, .sender, .sender, .sender, .receiver, .receiver,
      .receiver] [] (some [1, 2]) [5, 5]).out = some [] :=
  ⟨by decide, ((empty_file_scenario (some [1, 2]) [5, 5]).2 _ (by decide)).2.2.1⟩

theorem inv_spc_returned {f : List Nat} {old : Option (List Nat)} {s : Sys}
    (h : Inv f old s) (hpc : s.spc = .returned) : f.length % 1000 ≠ 0 := by
  cases h with
  | start hpc2 => simp [hpc2] at hpc
  | fread k done rest hf hk hS => simp [hS.pc] at hpc
  | loopHead k done rest hf hk hS => simp [hS.pc] at hpc
  | sendData k done rest n hf hk hn hS => simp [hS.pc] at hpc
  | sent k done rest n hf hk hn hS => simp [hS.pc] at hpc
  | got k done rest n hf hk hn hS => simp [hS.pc] at hpc
  | fwrite k done rest n hf hk hn hpos hS => simp [hS.pc] at hpc
  | sendAck k done rest n hf hk hn hpos hS => simp [hS.pc] at hpc
  | acked k done rest n hf hk hn hpos hS => simp [hS.pc] at hpc
  | lastHead k n hlen hpos hlt hS => simp [hS.pc] at hpc
  | finalSend k n hlen hpos hlt hS => simp [hS.pc] at hpc
  | sentinel k n hlen hpos hlt hS => omega
  | gotSentinel k n hlen hpos hlt hS => omega
  | loopDone k n hlen hpos hlt hS => omega
  | finished k n hlen hpos hlt hS => omega
  | stuckLoopDone k hlen hS => simp [hS.pc] at hpc
  | stuck k hlen hS => simp [hS.pc] at hpc

theorem blocked_facts {f : List Nat} {old : Option (List Nat)} {s : Sys}
    (h : Inv f old s) (hq : quiescent s) (hmod : f.length % 1000 = 0) :
    s.spc = .waitAck ∧ s.rpc = .exited 0 ∧ s.queue = [] ∧
      s.strace = sTrace (f.length / 1000) ++ [.fread 0, .msgsnd (dataMsg 0) true] := by
  have hb := end_of_multiple h hq hmod
  exact ⟨hb.S.pc, hb.R.pc, hb.q, hb.S.tr⟩

/-- C2, what the code does: for every input whose length is a multiple of
1000 (the empty file included), when every call succeeds, `send()` never
returns, under any interleaving; the run, given enough fuel, reaches a state
in which no process can move, and in that state, as in every such state
under every interleaving, the receiver has exited with status 0, the queue
is empty, and the sender, whose last call was the msgsnd of a DATA message
of size 0 made inside its loop, is blocked in the msgrcv that waits for an
ACK of that message. -/
theorem sender_blocked_after_inloop_sentinel (f : List Nat) (old : Option (List Nat))
    (shm0 : List Nat) (hmod : f.length % 1000 = 0) :
    (∃ n, quiescent (run n (init f old shm0)) ∧
      (run n (init f old shm0)).spc = .waitAck ∧
      (run n (init f old shm0)).rpc = .exited 0 ∧
      (run n (init f old shm0)).queue = []) ∧
    (∀ sched : List Role, (runOf sched f old shm0).spc ≠ .returned) ∧
    ∀ sched : List Role, quiescent (runOf sched f old shm0) →
      (runOf sched f old shm0).spc = .waitAck ∧
      (runOf sched f old shm0).rpc = .exited 0 ∧
      (runOf sched f old shm0).queue = [] ∧
      (runOf sched f old shm0).strace =
        sTrace (f.length / 1000) ++ [.fread 0, .msgsnd (dataMsg 0) true] := by
  refine ⟨?_, ?_, ?_⟩
  · obtain ⟨hq, hinv⟩ := run_init_quiescent f old shm0
    obtain ⟨h1, h2, h3, _⟩ := blocked_facts hinv hq hmod
    exact ⟨_, hq, h1, h2, h3⟩
  · intro sched hpc
    exact inv_spc_returned (inv_runOf sched f old shm0) hpc hmod
  · intro sched hq
    exact blocked_facts (inv_runOf sched f old shm0) hq hmod

/-- Witness for C2: the empty file; the sender ends blocked in msgrcv. -/
theorem sender_blocked_after_inloop_sentinel_witness :
    ([] : List Nat).length % 1000 = 0 ∧
    quiescent (runOf [.receiver, .sender, .sender, .sender, .sender, .receiver, .receiver,
      .receiver] [] none []) ∧
    (runOf [.receiver, .sender, .sender, .sender, .sender, .receiver, .receiver,
      .receiver] [] none []).spc = .waitAck :=
  ⟨by decide, by decide,
    ((sender_blocked_after_inloop_sentinel [] none [] (by decide)).2.2 _ (by decide)).1⟩

/-- C7, what the code does: in every state in which a failure-free run has
come to rest, whatever the input, the last two calls of the receiver are the
msgrcv that returned the DATA message of size 0 and the `return 0` of
`main`: it sent no ACK for that message, and it never called fclose. -/
theorem receiver_exits_without_cleanup (f : List Nat) (old : Option (List Nat))
    (shm0 : List Nat) (sched : List Role) (hq : quiescent (runOf sched f old shm0)) :
    (∃ tr, (runOf sched f old shm0).rtrace =
      tr ++ [.msgrcv SENDER_DATA_TYPE (some (dataMsg 0)), .exit 0]) ∧
    Ev.fclose ∉ (runOf sched f old shm0).rtrace ∧
    (runOf sched f old shm0).rpc = .exited 0 := by
  rcases inv_quiescent (inv_runOf sched f old shm0) hq with ⟨k, hb⟩ | ⟨k, n, hfin⟩
  · refine ⟨⟨rTrace k, hb.R.tr⟩, ?_, hb.R.pc⟩
    rw [hb.R.tr]
    simp [fclose_not_mem_rTrace]
  · refine ⟨⟨rTrace k ++ rCycle n, ?_⟩, ?_, hfin.R.pc⟩
    · rw [hfin.R.tr]
    · rw [hfin.R.tr]
      simp [fclose_not_mem_rTrace, rCycle]

/-- Witness for C7: the empty file, where the DATA message of size 0 is
the first message; the receiver makes three calls in all. -/
theorem receiver_exits_without_cleanup_witness :
    quiescent (runOf [.receiver, .sender, .sender, .sender, .sender, .receiver, .receiver,
      .receiver] [] none []) ∧
    (runOf [.receiver, .sender, .sender, .sender, .sender, .receiver, .receiver,
      .receiver] [] none []).rtrace =
      [.fopen true, .msgrcv SENDER_DATA_TYPE (some (dataMsg 0)), .exit 0] ∧
    Ev.fclose ∉ (runOf [.receiver, .sender, .sender, .sender, .sender, .receiver, .receiver,
      .receiver] [] none []).rtrace :=
  ⟨by decide, by decide,
    (receiver_exits_without_cleanup [] none [] _ (by decide)).2.1⟩

/-- C8, what the code does.  On the three-byte file `[7, 8, 9]`: when the
msgsnd that announces the chunk returns -1, `send()` reports it and goes on
to its msgrcv (here made to fail too, which is what ends the process); and
when the msgsnd of the final size-0 message returns -1, `send()` reports
it, closes the file and returns to `main` without calling `exit`. -/
theorem sender_msgsnd_failure_not_fatal :
    (exec [(.sender, okEnv), (.sender, okEnv), (.sender, okEnv), (.sender, failEnv 0)]
      (init [7, 8, 9] none [])).spc = .waitAck ∧
    (exec [(.sender, okEnv), (.sender, okEnv), (.sender, okEnv), (.sender, failEnv 0),
        (.sender, failEnv 0)] (init [7, 8, 9] none [])).strace =
      [.fopen true, .fread 3, .msgsnd (dataMsg 3) false, .perror,
        .msgrcv RECV_DONE_TYPE none, .perror, .exit 1] ∧
    (exec (okSched [.sender, .sender, .sender, .sender, .receiver, .receiver, .receiver,
        .receiver, .receiver, .sender, .sender] ++ [(.sender, failEnv 0)])
      (init [7, 8, 9] none [])).spc = .returned ∧
    (exec (okSched [.sender, .sender, .sender, .sender, .receiver, .receiver, .receiver,
        .receiver, .receiver, .sender, .sender] ++ [(.sender, failEnv 0)])
      (init [7, 8, 9] none [])).strace =
      [.fopen true, .fread 3, .msgsnd (dataMsg 3) true, .msgrcv RECV_DONE_TYPE (some ackMsg),
        .msgsnd (dataMsg 0) false, .perror, .fclose] := by
  decide

/-- C9, what the code does.  On the three-byte file `[7, 8, 9]`: when the
receiver's fwrite of the chunk fails after one byte, the receiver reports
nothing, does not exit, and its next call sends the ACK; when the sender's
fread fails with a read error after one byte, the sender reports nothing,
does not exit, and its next call sends a DATA message of size 1. -/
theorem io_failure_not_fatal :
    (exec (okSched [.sender, .sender, .sender, .sender, .receiver, .receiver, .receiver]
        ++ [(.receiver, failEnv 1), (.receiver, okEnv)]) (init [7, 8, 9] none [])).rtrace =
      [.fopen true, .msgrcv SENDER_DATA_TYPE (some (dataMsg 3)), .fwrite 3 1,
        .msgsnd ackMsg true] ∧
    (exec (okSched [.sender, .sender, .sender, .sender, .receiver, .receiver, .receiver]
        ++ [(.receiver, failEnv 1), (.receiver, okEnv)]) (init [7, 8, 9] none [])).out =
      some [7] ∧
    (exec [(.sender, okEnv), (.sender, okEnv), (.sender, failEnv 1), (.sender, okEnv)]
      (init [7, 8, 9] none [])).strace =
      [.fopen true, .fread 1, .msgsnd (dataMsg 1) true] ∧
    (exec [(.sender, okEnv), (.sender, okEnv), (.sender, failEnv 1), (.sender, okEnv)]
      (init [7, 8, 9] none [])).spc = .waitAck := by
  decide

/-! ### Size bounds, whatever the calls answer -/

theorem forall_mem_append_of {α : Type} {p : α → Prop} {a b : List α}
    (ha : ∀ x ∈ a, p x) (hb : ∀ x ∈ b, p x) : ∀ x ∈ a ++ b, p x := by
  intro x hx
  rcases List.mem_append.mp hx with h | h
  · exact ha x h
  · exact hb x h

theorem dequeue_spec {t : Int} {q q2 : List KMsg} {m : KMsg}
    (h : dequeue t q = some (m, q2)) :
    m.mtype = t ∧ m ∈ q ∧ (∀ x ∈ q2, x ∈ q) ∧
      ∀ p : KMsg → Bool, q.countP p = q2.countP p + (if p m then 1 else 0) := by
  induction q generalizing q2 m with
  | nil => simp [dequeue] at h
  | cons a q ih =>
    unfold dequeue at h
    split at h
    · rename_i ha
      cases h
      refine ⟨ha, by simp, fun x hx => by simp [hx], fun p => ?_⟩
      simp [List.countP_cons]
    · rename_i ha
      split at h
      · cases h
      · rename_i x q3 hx
        cases h
        obtain ⟨h1, h2, h3, h4⟩ := ih hx
        refine ⟨h1, by simp [h2], fun y hy => ?_, fun p => ?_⟩
        · rcases List.mem_cons.mp hy with rfl | hy
          · simp
          · simp [h3 y hy]
        · simp only [List.countP_cons, h4 p]
          omega

theorem bounded_init (f : List Nat) (old : Option (List Nat)) (shm0 : List Nat) :
    Bounded (init f old shm0) :=
  ⟨by simp [init], by simp [init], by simp [init], by simp [init], by simp [init],
    by simp [init]⟩

theorem bounded_sender_step {e : Env} {s t : Sys} (h : Bounded s)
    (hs : senderStep e s = some t) : Bounded t := by
  unfold senderStep at hs
  split at hs
  · rename_i hpc
    split at hs <;> cases hs
    · exact ⟨h.qok, forall_mem_append_of h.sok (by simp [evBounded]), h.rok,
        by simp, by simp, h.rsz⟩
    · exact ⟨h.qok, forall_mem_append_of h.sok (by simp [evBounded]), h.rok,
        by simp, by simp, h.rsz⟩
  · rename_i hpc
    have hm := h.smt (by simp [hpc])
    split at hs <;> cases hs
    · exact ⟨h.qok, h.sok, h.rok, fun _ => hm, by simp, h.rsz⟩
    · exact ⟨h.qok, h.sok, h.rok, fun _ => hm, by simp, h.rsz⟩
  · rename_i hpc
    have hm := h.smt (by simp [hpc])
    dsimp only at hs
    generalize hr : (if e.fail = true then min e.count (min SHARED_MEMORY_CHUNK_SIZE s.file.length)
      else min SHARED_MEMORY_CHUNK_SIZE s.file.length) = r at hs
    have hle : r ≤ SHARED_MEMORY_CHUNK_SIZE := by
      rw [← hr]
      split
      · exact le_trans (Nat.min_le_right _ _) (Nat.min_le_left _ _)
      · exact Nat.min_le_left _ _
    have hsz : toInt32 r = (r : Int) := toInt32_small r (by simpa [SHARED_MEMORY_CHUNK_SIZE] using hle)
    split at hs <;> cases hs
    · exact ⟨h.qok,
        forall_mem_append_of (forall_mem_append_of h.sok (by simpa [evBounded] using hle))
          (by simp [evBounded]),
        h.rok, fun _ => hm, by simp, h.rsz⟩
    · exact ⟨h.qok, forall_mem_append_of h.sok (by simpa [evBounded] using hle), h.rok,
        fun _ => hm, fun _ => ⟨r, hle, hsz⟩, h.rsz⟩
  · rename_i hpc
    have hm := h.smt (by simp [hpc])
    obtain ⟨n, hn, hsz⟩ := h.ssz hpc
    have hok : MsgOk { mtype := s.sndMsg.mtype, mtext := some s.sndMsg.size } :=
      Or.inl ⟨hm, n, hn, by simp [hsz]⟩
    split at hs <;> cases hs
    · exact ⟨h.qok, forall_mem_append_of h.sok (by simpa [evBounded] using hok), h.rok,
        fun _ => hm, by simp, h.rsz⟩
    · exact ⟨forall_mem_append_of h.qok (by simpa using hok),
        forall_mem_append_of h.sok (by simpa [evBounded] using hok), h.rok,
        fun _ => hm, by simp, h.rsz⟩
  · rename_i hpc
    have hm := h.smt (by simp [hpc])
    split at hs
    · cases hs
      exact ⟨h.qok, forall_mem_append_of h.sok (by simp [evBounded]), h.rok,
        fun _ => hm, by simp, h.rsz⟩
    · split at hs
      · cases hs
      · rename_i m q hd
        cases hs
        obtain ⟨_, _, hsub, _⟩ := dequeue_spec hd
        exact ⟨fun x hx => h.qok x (hsub x hx),
          forall_mem_append_of h.sok (by simp [evBounded]), h.rok,
          fun _ => hm, by simp, h.rsz⟩
  · rename_i hpc
    have hm := h.smt (by simp [hpc])
    have hok : MsgOk { mtype := s.sndMsg.mtype, mtext := some 0 } :=
      Or.inl ⟨hm, 0, Nat.zero_le _, by simp⟩
    split at hs <;> cases hs
    · exact ⟨h.qok, forall_mem_append_of h.sok (by simpa [evBounded] using hok), h.rok,
        fun _ => hm, by simp, h.rsz⟩
    · exact ⟨forall_mem_append_of h.qok (by simpa using hok),
        forall_mem_append_of h.sok (by simpa [evBounded] using hok), h.rok,
        fun _ => hm, by simp, h.rsz⟩
  · cases hs
  · cases hs

theorem msgOk_data_size {m : KMsg} (hok : MsgOk m) (ht : m.mtype = SENDER_DATA_TYPE)
    (buf : message) :
    ∃ n : Nat, n ≤ SHARED_MEMORY_CHUNK_SIZE ∧ (deliver m buf).size = (n : Int) := by
  rcases hok with ⟨_, n, hn, hm⟩ | hack
  · exact ⟨n, hn, by simp [deliver, hm]⟩
  · rw [hack] at ht
    simp [ackMsg, SENDER_DATA_TYPE, RECV_DONE_TYPE] at ht

theorem bounded_recv_step {e : Env} {s t : Sys} (h : Bounded s)
    (hs : recvStep e s = some t) : Bounded t := by
  have hack : MsgOk { mtype := RECV_DONE_TYPE, mtext := none } := Or.inr rfl
  unfold recvStep at hs
  split at hs
  · rename_i hpc
    split at hs <;> cases hs
    · exact ⟨h.qok, h.sok, forall_mem_append_of h.rok (by simp [evBounded]), h.smt, h.ssz,
        by simp⟩
    · exact ⟨h.qok, h.sok, forall_mem_append_of h.rok (by simp [evBounded]), h.smt, h.ssz,
        by simp⟩
  · rename_i hpc
    split at hs
    · cases hs
      exact ⟨h.qok, h.sok, forall_mem_append_of h.rok (by simp [evBounded]), h.smt, h.ssz,
        by simp⟩
    · split at hs
      · cases hs
      · rename_i m q hd
        cases hs
        obtain ⟨ht, hmem, hsub, _⟩ := dequeue_spec hd
        exact ⟨fun x hx => h.qok x (hsub x hx), h.sok,
          forall_mem_append_of h.rok (by simp [evBounded]), h.smt, h.ssz,
          fun _ => msgOk_data_size (h.qok m hmem) ht _⟩
  · rename_i hpc
    have hsz := h.rsz (Or.inl hpc)
    split at hs
    · cases hs
      exact ⟨h.qok, h.sok, h.rok, h.smt, h.ssz, fun _ => hsz⟩
    · cases hs
      exact ⟨h.qok, h.sok, h.rok, h.smt, h.ssz, by simp⟩
  · rename_i hpc
    obtain ⟨n, hn, hsz⟩ := h.rsz (Or.inr hpc)
    have hreq : toSizeT s.msgSize = n := by
      rw [hsz]
      exact toSizeT_natCast n (by simpa [SHARED_MEMORY_CHUNK_SIZE] using hn)
    dsimp only at hs
    rw [hreq] at hs
    generalize hw : (if e.fail = true then min e.count n else n) = w at hs
    have hle : w ≤ n := by
      rw [← hw]
      split
      · exact Nat.min_le_right _ _
      · exact le_refl _
    split at hs <;> cases hs
    · exact ⟨h.qok, h.sok,
        forall_mem_append_of (forall_mem_append_of h.rok (by simpa [evBounded] using ⟨hn, hle⟩))
          (by simp [evBounded]),
        h.smt, h.ssz, by simp⟩
    · exact ⟨h.qok, h.sok,
        forall_mem_append_of h.rok (by simpa [evBounded] using ⟨hn, hle⟩),
        h.smt, h.ssz, by simp⟩
  · rename_i hpc
    split at hs <;> cases hs
    · exact ⟨h.qok, h.sok, forall_mem_append_of h.rok (by simpa [evBounded] using hack),
        h.smt, h.ssz, by simp⟩
    · exact ⟨forall_mem_append_of h.qok (by simpa using hack), h.sok,
        forall_mem_append_of h.rok (by simpa [evBounded] using hack), h.smt, h.ssz, by simp⟩
  · rename_i hpc
    split at hs
    · cases hs
      exact ⟨h.qok, h.sok, forall_mem_append_of h.rok (by simp [evBounded]), h.smt, h.ssz,
        by simp⟩
    · split at hs
      · cases hs
      · rename_i m q hd
        cases hs
        obtain ⟨ht, hmem, hsub, _⟩ := dequeue_spec hd
        exact ⟨fun x hx => h.qok x (hsub x hx), h.sok,
          forall_mem_append_of h.rok (by simp [evBounded]), h.smt, h.ssz,
          fun _ => msgOk_data_size (h.qok m hmem) ht _⟩
  · rename_i hpc
    cases hs
    exact ⟨h.qok, h.sok, forall_mem_append_of h.rok (by simp [evBounded]), h.smt, h.ssz,
      by simp⟩
  · cases hs

theorem bounded_exec (sched : List (Role × Env)) :
    ∀ s : Sys, Bounded s → Bounded (exec sched s) := by
  induction sched with
  | nil => intro s h; exact h
  | cons a rest ih =>
    intro s h
    obtain ⟨r, e⟩ := a
    simp only [exec]
    cases hs : step r e s with
    | none => exact ih s h
    | some t =>
      refine ih t ?_
      cases r
      · exact bounded_sender_step h hs
      · exact bounded_recv_step h hs

theorem dataSizes_bounded {tr : List Ev} (h : ∀ e ∈ tr, evBounded e) :
    ∀ z ∈ dataSizes tr, 0 ≤ z ∧ z ≤ 1000 := by
  intro z hz
  simp only [dataSizes, List.mem_filterMap] at hz
  obtain ⟨e, he, hez⟩ := hz
  have hb := h e he
  cases e with
  | msgsnd m ok =>
    obtain ⟨t, x⟩ := m
    cases ok <;> cases x <;> simp [dataSize?] at hez
    obtain ⟨ht, rfl⟩ := hez
    rcases hb with ⟨_, n, hn, hm⟩ | hack
    · simp only [Option.some.injEq] at hm
      simp only [SHARED_MEMORY_CHUNK_SIZE] at hn
      omega
    · simp [ackMsg] at hack
  | _ => simp [dataSize?] at hez

/-- C6: chunk bound.  In every state the two processes can reach from the
start, for every input file, under every interleaving and whatever the
calls answer (failures included): every DATA message the sender has sent
announces a size between 0 and 1000, every fread staged at most 1000 bytes
into the shared segment, and every fwrite of the receiver was asked to copy
at most 1000 bytes out of it and wrote no more than that. -/
theorem chunk_bound (f : List Nat) (old : Option (List Nat)) (shm0 : List Nat)
    (sched : List (Role × Env)) :
    (∀ z ∈ dataSizes (exec sched (init f old shm0)).strace, 0 ≤ z ∧ z ≤ 1000) ∧
    (∀ n, Ev.fread n ∈ (exec sched (init f old shm0)).strace →
      n ≤ SHARED_MEMORY_CHUNK_SIZE) ∧
    (∀ req w, Ev.fwrite req w ∈ (exec sched (init f old shm0)).rtrace →
      req ≤ SHARED_MEMORY_CHUNK_SIZE ∧ w ≤ req) := by
  have hb := bounded_exec sched _ (bounded_init f old shm0)
  refine ⟨dataSizes_bounded hb.sok, ?_, ?_⟩
  · intro n hn
    exact hb.sok _ hn
  · intro req w hw
    exact hb.rok _ hw

/-- Witness for C6: a three-byte file in a run where the sender's fread
fails after two bytes. -/
theorem chunk_bound_witness :
    Ev.fread 2 ∈ (exec [(.sender, okEnv), (.sender, okEnv), (.sender, failEnv 2)]
      (init [7, 8, 9] none [])).strace ∧ 2 ≤ SHARED_MEMORY_CHUNK_SIZE :=
  ⟨by decide, (chunk_bound [7, 8, 9] none []
    [(.sender, okEnv), (.sender, okEnv), (.sender, failEnv 2)]).2.1 2 (by decide)⟩

/-! ### One chunk in flight, whatever the calls answer -/

theorem acksSent_snoc (tr : List Ev) (l : List Ev) :
    acksSent (tr ++ l) = acksSent tr + l.countP isAckSend := by
  simp [acksSent, List.countP_append]

theorem acksReceived_snoc (tr : List Ev) (l : List Ev) :
    acksReceived (tr ++ l) = acksReceived tr + l.countP isAckRecv := by
  simp [acksReceived, List.countP_append]

theorem nzSent_snoc (tr : List Ev) (l : List Ev) :
    nzSent (tr ++ l) = nzSent tr + l.countP isNzSend := by
  simp [nzSent, List.countP_append]

theorem nzReceived_snoc (tr : List Ev) (l : List Ev) :
    nzReceived (tr ++ l) = nzReceived tr + l.countP isNzRecv := by
  simp [nzReceived, List.countP_append]

theorem ackQueued_snoc (q : List KMsg) (m : KMsg) :
    ackQueued (q ++ [m]) = ackQueued q + (if m.mtype = RECV_DONE_TYPE then 1 else 0) := by
  simp [ackQueued, List.countP_append, List.countP_cons]

theorem nzQueued_snoc (q : List KMsg) (m : KMsg) :
    nzQueued (q ++ [m]) = nzQueued q + (if isNzData m = true then 1 else 0) := by
  simp [nzQueued, List.countP_append, List.countP_cons]

theorem counted_init (f : List Nat) (old : Option (List Nat)) (shm0 : List Nat) :
    Counted (init f old shm0) := by
  refine ⟨?_, ?_, ?_, ?_, ?_, ?_⟩ <;>
    simp [init, acksReceived, ackQueued, acksSent, nzSent, nzQueued, nzReceived]

theorem counted_sender_step {e : Env} {s t : Sys} (h : Counted s) (hb : Bounded s)
    (hs : senderStep e s = some t) : Counted t := by
  have h1 := h.ack
  have h2 := h.nz
  have h5 := h.scnt
  have h6 := h.scnt0
  unfold senderStep at hs
  split at hs
  · rename_i hpc
    have h7 := h6 (by simp [hpc])
    split at hs <;> cases hs
    · refine ⟨?_, ?_, h.rcnt, h.rcnt1, ?_, ?_⟩ <;>
        simp [acksReceived_snoc, nzSent_snoc, List.countP_cons, isAckRecv, isNzSend] <;> omega
    · refine ⟨?_, ?_, h.rcnt, h.rcnt1, ?_, ?_⟩ <;>
        simp [acksReceived_snoc, nzSent_snoc, List.countP_cons, isAckRecv, isNzSend] <;> omega
  · rename_i hpc
    have h7 := h6 (by simp [hpc])
    split at hs <;> cases hs
    · exact ⟨h1, h2, h.rcnt, h.rcnt1, h5, fun _ => h7⟩
    · exact ⟨h1, h2, h.rcnt, h.rcnt1, h5, fun _ => h7⟩
  · rename_i hpc
    have h7 := h6 (by simp [hpc])
    dsimp only at hs
    generalize (if e.fail = true then min e.count (min SHARED_MEMORY_CHUNK_SIZE s.file.length)
      else min SHARED_MEMORY_CHUNK_SIZE s.file.length) = r at hs
    split at hs <;> cases hs
    · refine ⟨?_, ?_, h.rcnt, h.rcnt1, ?_, ?_⟩ <;>
        simp [acksReceived_snoc, nzSent_snoc, List.countP_cons, isAckRecv, isNzSend] <;> omega
    · refine ⟨?_, ?_, h.rcnt, h.rcnt1, ?_, ?_⟩ <;>
        simp [acksReceived_snoc, nzSent_snoc, List.countP_cons, isAckRecv, isNzSend] <;> omega
  · rename_i hpc
    have h7 := h6 (by simp [hpc])
    have hm := hb.smt (by simp [hpc])
    split at hs <;> cases hs
    · refine ⟨?_, ?_, h.rcnt, h.rcnt1, ?_, ?_⟩ <;>
        simp [acksReceived_snoc, nzSent_snoc, List.countP_cons, isAckRecv, isNzSend] <;> omega
    · refine ⟨?_, ?_, h.rcnt, h.rcnt1, ?_, ?_⟩
      · simp only [acksReceived_snoc, ackQueued_snoc, List.countP_cons, List.countP_nil,
          isAckRecv, hm]
        simp [SENDER_DATA_TYPE, RECV_DONE_TYPE]
        omega
      · simp only [nzSent_snoc, nzQueued_snoc, List.countP_cons, List.countP_nil, isNzSend]
        omega
      · simp only [acksReceived_snoc, nzSent_snoc, List.countP_cons, List.countP_nil,
          isAckRecv, isNzSend]
        split <;> simp <;> omega
      · simp
  · rename_i hpc
    split at hs
    · cases hs
      refine ⟨?_, ?_, h.rcnt, h.rcnt1, ?_, ?_⟩ <;>
        simp [acksReceived_snoc, nzSent_snoc, List.countP_cons, isAckRecv, isNzSend] <;> omega
    · split at hs
      · cases hs
      · rename_i m q hd
        cases hs
        obtain ⟨ht, _, _, hc⟩ := dequeue_spec hd
        have hc1 := hc (fun m => decide (m.mtype = RECV_DONE_TYPE))
        have hc2 := hc isNzData
        have hnz : isNzData m = false := by
          simp [isNzData, ht, SENDER_DATA_TYPE, RECV_DONE_TYPE]
        simp only [ht, decide_True, if_true] at hc1
        simp only [hnz, Bool.false_eq_true, if_false, Nat.add_zero] at hc2
        refine ⟨?_, ?_, h.rcnt, h.rcnt1, ?_, ?_⟩
        · simp only [acksReceived_snoc, List.countP_cons, List.countP_nil, isAckRecv, ht,
            decide_True, if_true, ackQueued] at h1 ⊢
          omega
        · simp only [nzSent_snoc, List.countP_cons, List.countP_nil, isNzSend, nzQueued]
            at h2 ⊢
          simp at h2 ⊢
          omega
        · simp only [acksReceived_snoc, nzSent_snoc, List.countP_cons, List.countP_nil,
            isAckRecv, isNzSend, ht, decide_True, if_true]
          simp
          omega
        · intro _
          simp only [acksReceived_snoc, nzSent_snoc, List.countP_cons, List.countP_nil,
            isAckRecv, isNzSend, ht, decide_True, if_true]
          simp
          omega
  · rename_i hpc
    have h7 := h6 (by simp [hpc])
    have hnz : isNzData { mtype := s.sndMsg.mtype, mtext := some 0 } = false := by
      simp [isNzData]
    have hm := hb.smt (by simp [hpc])
    split at hs <;> cases hs
    · refine ⟨?_, ?_, h.rcnt, h.rcnt1, ?_, ?_⟩ <;>
        simp [acksReceived_snoc, nzSent_snoc, List.countP_cons, isAckRecv, isNzSend] <;> omega
    · refine ⟨?_, ?_, h.rcnt, h.rcnt1, ?_, ?_⟩ <;>
        simp [acksReceived_snoc, nzSent_snoc, ackQueued_snoc, nzQueued_snoc, List.countP_cons,
          isAckRecv, isNzSend, isNzData, hm, SENDER_DATA_TYPE, RECV_DONE_TYPE] <;> omega
  · cases hs
  · cases hs

theorem counted_recv_step {e : Env} {s t : Sys} (h : Counted s)
    (hs : recvStep e s = some t) : Counted t := by
  have h1 := h.ack
  have h2 := h.nz
  have h3 := h.rcnt
  have h4 := h.rcnt1
  unfold recvStep at hs
  split at hs
  · rename_i hpc
    split at hs <;> cases hs
    · refine ⟨?_, ?_, ?_, ?_, h.scnt, h.scnt0⟩ <;>
        simp [acksSent_snoc, nzReceived_snoc, List.countP_cons, isAckSend, isNzRecv] <;> omega
    · refine ⟨?_, ?_, ?_, ?_, h.scnt, h.scnt0⟩ <;>
        simp [acksSent_snoc, nzReceived_snoc, List.countP_cons, isAckSend, isNzRecv] <;> omega
  · rename_i hpc
    split at hs
    · cases hs
      refine ⟨?_, ?_, ?_, ?_, h.scnt, h.scnt0⟩ <;>
        simp [acksSent_snoc, nzReceived_snoc, List.countP_cons, isAckSend, isNzRecv] <;> omega
    · split at hs
      · cases hs
      · rename_i m q hd
        cases hs
        obtain ⟨ht, _, _, hc⟩ := dequeue_spec hd
        have hc1 := hc (fun m => decide (m.mtype = RECV_DONE_TYPE))
        have hc2 := hc isNzData
        have hna : ¬ (m.mtype = RECV_DONE_TYPE) := by
          rw [ht]; simp [SENDER_DATA_TYPE, RECV_DONE_TYPE]
        simp only [hna, decide_False, Bool.false_eq_true, if_false, Nat.add_zero] at hc1
        refine ⟨?_, ?_, ?_, ?_, h.scnt, h.scnt0⟩
        · simp only [acksSent_snoc, List.countP_cons, List.countP_nil, isAckSend, ackQueued]
            at h1 ⊢
          simp at h1 ⊢
          omega
        · simp only [nzReceived_snoc, List.countP_cons, List.countP_nil, isNzRecv, nzQueued]
            at h2 ⊢
          simp at h2 ⊢
          omega
        · simp only [acksSent_snoc, nzReceived_snoc, List.countP_cons, List.countP_nil,
            isAckSend, isNzRecv]
          simp
          omega
        · intro hp
          have hsz : (deliver m s.myMessage).size ≠ 0 := by simpa using hp
          have hnz : isNzData m = true := by
            simp only [isNzData, ht, decide_True, Bool.true_and, decide_eq_true_eq]
            intro hm
            simp [deliver, hm] at hsz
          simp only [acksSent_snoc, nzReceived_snoc, List.countP_cons, List.countP_nil,
            isAckSend, isNzRecv, hnz]
          simp
          omega
  · rename_i hpc
    split at hs
    · rename_i hne
      cases hs
      have h7 := h4 (Or.inr (Or.inr ⟨hpc, hne⟩))
      exact ⟨h1, h2, h3, fun _ => h7, h.scnt, h.scnt0⟩
    · cases hs
      exact ⟨h1, h2, h3, by simp, h.scnt, h.scnt0⟩
  · rename_i hpc
    have h7 := h4 (Or.inl hpc)
    dsimp only at hs
    generalize (if e.fail = true then min e.count (toSizeT s.msgSize) else toSizeT s.msgSize)
      = w at hs
    split at hs <;> cases hs
    · refine ⟨?_, ?_, ?_, ?_, h.scnt, h.scnt0⟩ <;>
        simp [acksSent_snoc, nzReceived_snoc, List.countP_cons, isAckSend, isNzRecv] <;> omega
    · refine ⟨?_, ?_, ?_, ?_, h.scnt, h.scnt0⟩ <;>
        simp [acksSent_snoc, nzReceived_snoc, List.countP_cons, isAckSend, isNzRecv] <;> omega
  · rename_i hpc
    have h7 := h4 (Or.inr (Or.inl hpc))
    split at hs <;> cases hs
    · refine ⟨?_, ?_, ?_, ?_, h.scnt, h.scnt0⟩ <;>
        simp [acksSent_snoc, nzReceived_snoc, List.countP_cons, isAckSend, isNzRecv] <;> omega
    · refine ⟨?_, ?_, ?_, ?_, h.scnt, h.scnt0⟩ <;>
        simp [acksSent_snoc, nzReceived_snoc, ackQueued_snoc, nzQueued_snoc, List.countP_cons,
          isAckSend, isNzRecv, isNzData, SENDER_DATA_TYPE, RECV_DONE_TYPE] <;> omega
  · rename_i hpc
    split at hs
    · cases hs
      refine ⟨?_, ?_, ?_, ?_, h.scnt, h.scnt0⟩ <;>
        simp [acksSent_snoc, nzReceived_snoc, List.countP_cons, isAckSend, isNzRecv] <;> omega
    · split at hs
      · cases hs
      · rename_i m q hd
        cases hs
        obtain ⟨ht, _, _, hc⟩ := dequeue_spec hd
        have hc1 := hc (fun m => decide (m.mtype = RECV_DONE_TYPE))
        have hc2 := hc isNzData
        have hna : ¬ (m.mtype = RECV_DONE_TYPE) := by
          rw [ht]; simp [SENDER_DATA_TYPE, RECV_DONE_TYPE]
        simp only [hna, decide_False, Bool.false_eq_true, if_false, Nat.add_zero] at hc1
        refine ⟨?_, ?_, ?_, ?_, h.scnt, h.scnt0⟩
        · simp only [acksSent_snoc, List.countP_cons, List.countP_nil, isAckSend, ackQueued]
            at h1 ⊢
          simp at h1 ⊢
          omega
        · simp only [nzReceived_snoc, List.countP_cons, List.countP_nil, isNzRecv, nzQueued]
            at h2 ⊢
          simp at h2 ⊢
          omega
        · simp only [acksSent_snoc, nzReceived_snoc, List.countP_cons, List.countP_nil,
            isAckSend, isNzRecv]
          simp
          omega
        · intro hp
          have hsz : (deliver m s.myMessage).size ≠ 0 := by simpa using hp
          have hnz : isNzData m = true := by
            simp only [isNzData, ht, decide_True, Bool.true_and, decide_eq_true_eq]
            intro hm
            simp [deliver, hm] at hsz
          simp only [acksSent_snoc, nzReceived_snoc, List.countP_cons, List.countP_nil,
            isAckSend, isNzRecv, hnz]
          simp
          omega
  · rename_i hpc
    cases hs
    refine ⟨?_, ?_, ?_, ?_, h.scnt, h.scnt0⟩ <;>
      simp [acksSent_snoc, nzReceived_snoc, List.countP_cons, isAckSend, isNzRecv] <;> omega
  · cases hs

theorem safe_exec (sched : List (Role × Env)) :
    ∀ s : Sys, Bounded s → Counted s → Bounded (exec sched s) ∧ Counted (exec sched s) := by
  induction sched with
  | nil => intro s h1 h2; exact ⟨h1, h2⟩
  | cons a rest ih =>
    intro s hb hc
    obtain ⟨r, e⟩ := a
    simp only [exec]
    cases hs : step r e s with
    | none => exact ih s hb hc
    | some t =>
      cases r
      · exact ih t (bounded_sender_step hb hs) (counted_sender_step hc hb hs)
      · exact ih t (bounded_recv_step hb hs) (counted_recv_step hc hs)

/-- C5: single in-flight chunk.  In every state the two processes can
reach from the start, for every input file, under every interleaving and
whatever the calls answer (failures included): the number of nonzero DATA
messages the sender has sent minus the number of ACK messages it has
received is 0 or 1; and whenever the sender is at its loop test, about to
fread the next chunk into the shared segment, or about to send a DATA
message (in the loop or the final one), the difference is 0: every nonzero
DATA message sent before has been acknowledged. -/
theorem single_in_flight (f : List Nat) (old : Option (List Nat)) (shm0 : List Nat)
    (sched : List (Role × Env)) :
    acksReceived (exec sched (init f old shm0)).strace ≤
      nzSent (exec sched (init f old shm0)).strace ∧
    nzSent (exec sched (init f old shm0)).strace ≤
      acksReceived (exec sched (init f old shm0)).strace + 1 ∧
    ((exec sched (init f old shm0)).spc = .loopHead ∨
      (exec sched (init f old shm0)).spc = .fread ∨
      (exec sched (init f old shm0)).spc = .sendData ∨
      (exec sched (init f old shm0)).spc = .finalSend →
      nzSent (exec sched (init f old shm0)).strace =
        acksReceived (exec sched (init f old shm0)).strace) := by
  obtain ⟨_, hc⟩ := safe_exec sched _ (bounded_init f old shm0) (counted_init f old shm0)
  have h1 := hc.ack
  have h2 := hc.nz
  have h3 := hc.rcnt
  have hle : acksReceived (exec sched (init f old shm0)).strace ≤
      nzSent (exec sched (init f old shm0)).strace := by omega
  refine ⟨hle, hc.scnt, ?_⟩
  intro hpc
  have h6 := hc.scnt0 (by
    rcases hpc with h | h | h | h
    · exact Or.inr (Or.inl h)
    · exact Or.inr (Or.inr (Or.inl h))
    · exact Or.inr (Or.inr (Or.inr (Or.inl h)))
    · exact Or.inr (Or.inr (Or.inr (Or.inr (Or.inl h)))))
  omega

/-- Witness for C5: a three-byte file, at the final msgsnd, after the
chunk went through while the receiver's fwrite was short. -/
theorem single_in_flight_witness :
    (exec [(.sender, okEnv), (.sender, okEnv), (.sender, okEnv), (.sender, okEnv),
        (.receiver, okEnv), (.receiver, okEnv), (.receiver, okEnv), (.receiver, failEnv 2),
        (.receiver, okEnv), (.sender, okEnv), (.sender, okEnv)]
      (init [7, 8, 9] none [])).spc = .finalSend ∧
    nzSent (exec [(.sender, okEnv), (.sender, okEnv), (.sender, okEnv), (.sender, okEnv),
        (.receiver, okEnv), (.receiver, okEnv), (.receiver, okEnv), (.receiver, failEnv 2),
        (.receiver, okEnv), (.sender, okEnv), (.sender, okEnv)]
      (init [7, 8, 9] none [])).strace =
    acksReceived (exec [(.sender, okEnv), (.sender, okEnv), (.sender, okEnv), (.sender, okEnv),
        (.receiver, okEnv), (.receiver, okEnv), (.receiver, okEnv), (.receiver, failEnv 2),
        (.receiver, okEnv), (.sender, okEnv), (.sender, okEnv)]
      (init [7, 8, 9] none [])).strace :=
  ⟨by decide,
    (single_in_flight [7, 8, 9] none [] _).2.2 (Or.inr (Or.inr (Or.inr (by decide))))⟩

end ShmTransfer
